import Mathlib

/-!
Verification of the terminal session bridge of `siriusx-temrinal`
(the WebSocket/pty server in the repository's terminal-server file).

The server is embedded as an event-driven transition system:

* `PtyProc` models one pseudo-terminal process created by `pty.spawn`
  (pid, current dimensions, the byte payloads written to its input in
  order, how many times `kill()` was invoked on it, and whether its
  exit event has been delivered yet).
* `Conn` models one accepted WebSocket connection together with the
  per-connection closure state of the source (`terminalId`, the
  captured terminal handle — absent when spawn failed — the socket's
  ready state and the ordered list of envelopes sent to the client).
* `ServerState` holds the global mutable state of the source file: the
  `terminals` Map (the Session Registry, an insertion-ordered map from
  session id to process handle), the heap of spawned processes, all
  connections, the listener state of `wss`, and whether `process.exit`
  ran.
* `step` executes one event-loop callback exactly as the source does:
  the `connection` handler (spawn, registry insert, `connected`
  envelope; or the spawn-failure catch block), the `message` handler
  (the `input`/`resize`/default switch inside try/catch), `onData`,
  `onExit`, the identical `close`/`error` socket handlers, the SIGINT
  handler, and the `wss.close` callback.

Process handles and connection identifiers are allocated from a single
fresh counter `nextId`; session-id strings are an oracle input on the
`connection` event, standing for the value of `generateId()`
(`Math.random().toString(36).substr(2, 9)`), which provides no
distinctness guarantee.
-/

namespace Siriusx

/-- Association-list lookup, first match: JS `Map.get`. -/
def alookup {α β : Type} [DecidableEq α] (k : α) : List (α × β) → Option β
  | [] => none
  | (k', v) :: rest => if k' = k then some v else alookup k rest

/-- JS `Map.set`: replace the entry in place when the key is present
(keeping insertion order), append otherwise. -/
def aset {α β : Type} [DecidableEq α] (k : α) (v : β) : List (α × β) → List (α × β)
  | [] => [(k, v)]
  | (k', v') :: rest => if k' = k then (k, v) :: rest else (k', v') :: aset k v rest

/-- JS `Map.delete`. -/
def aerase {α β : Type} [DecidableEq α] (k : α) : List (α × β) → List (α × β)
  | [] => []
  | (k', v') :: rest => if k' = k then aerase k rest else (k', v') :: aerase k rest

/-- WebSocket ready states relevant to the source: `OPEN` (readyState
checks in `onData`/`onExit` compare against this), `CLOSING` after the
server calls `ws.close()`, `CLOSED` once the close event has fired. -/
inductive WsReady : Type
  | OPEN : WsReady
  | CLOSING : WsReady
  | CLOSED : WsReady
deriving DecidableEq, Repr

/-- Outbound envelopes, per the wire schema of the source
(`connected`, `output`, `exit`, `error`). -/
inductive OutMsg : Type
  | connected (terminalId : String) (shell : String) (pid : Nat) : OutMsg
  | output (data : String) : OutMsg
  | exit (code : Option Int) (signal : Option String) : OutMsg
  | error (message : String) : OutMsg
deriving DecidableEq, Repr

/-- Result of `JSON.parse` plus the `type` dispatch on an inbound
message: a well-formed `input`, a well-formed `resize`, a message with
an unrecognized `type` (the `default` branch), or text that is not
valid JSON (`JSON.parse` throws, caught by the handler). -/
inductive RawMsg : Type
  | input (data : String) : RawMsg
  | resize (cols rows : Int) : RawMsg
  | unknown (ty : String) : RawMsg
  | malformed : RawMsg
deriving DecidableEq, Repr

/-- One pseudo-terminal process, as created by `pty.spawn`: its pid,
current window dimensions, everything written to its input in order,
how many times `kill()` has been invoked on it, and whether it is
still running (`alive` becomes false when its exit event fires). -/
structure PtyProc : Type where
  pid : Nat
  cols : Int
  rows : Int
  written : List String
  killCount : Nat
  alive : Bool
deriving DecidableEq, Repr

/-- One accepted connection together with its per-connection closure
variables from the source: the generated `terminalId`, the captured
terminal handle (`none` when spawn failed, so no terminal handlers were
registered), the socket state, and the envelopes sent to this client
in order. -/
structure Conn : Type where
  terminalId : String
  handle : Option Nat
  ready : WsReady
  sent : List OutMsg
deriving DecidableEq, Repr

/-- State of the `wss` WebSocket server (the Transport Listener). -/
inductive WssState : Type
  | listening : WssState
  | closing : WssState
  | closed : WssState
deriving DecidableEq, Repr

/-- Global server state: fresh-handle counter, the heap of spawned
processes, the `terminals` Map (Session Registry: id to handle), all
connections (keyed by an internal connection id), the listener, and
the `process.exit` flag. -/
structure ServerState : Type where
  nextId : Nat
  procs : List (Nat × PtyProc)
  terminals : List (String × Nat)
  conns : List (Nat × Conn)
  wss : WssState
  exited : Bool
deriving DecidableEq, Repr

/-- The shell chosen on a non-Windows host with `SHELL` unset
(`os.platform() === 'win32' ? 'powershell.exe' : process.env.SHELL || '/bin/bash'`). -/
def defaultShell : String := "/bin/bash"

/-- Events delivered by the event loop. `connection` carries the
oracle value of `generateId()` and whether `pty.spawn` threw (with the
error message); pty events and socket events are addressed to the
connection whose closure registered the handler. -/
inductive Event : Type
  | connection (id : String) (spawnErr : Option String) : Event
  | message (cid : Nat) (msg : RawMsg) : Event
  | ptyData (cid : Nat) (data : String) : Event
  | ptyExit (cid : Nat) (code : Option Int) (signal : Option String) : Event
  | wsClose (cid : Nat) : Event
  | wsError (cid : Nat) : Event
  | sigint : Event
  | wssClosed : Event
deriving DecidableEq, Repr

/-- The `wss.on('connection')` handler. When the listener is no longer
accepting, nothing happens. On spawn success: the terminal is created
with `cols: 80, rows: 30`, stored in the registry
(`terminals.set(terminalId, terminal)`), and the client receives the
`connected{terminalId, shell, pid}` envelope. On spawn failure (the
catch block): an `error` envelope is sent and `ws.close()` is called;
the registry is never touched. -/
def handleConnection (id : String) (spawnErr : Option String) (s : ServerState) : ServerState :=
  if s.wss ≠ WssState.listening then s else
  match spawnErr with
  | none =>
      let h := s.nextId
      let proc : PtyProc := ⟨h, 80, 30, [], 0, true⟩
      let conn : Conn := ⟨id, some h, WsReady.OPEN, [OutMsg.connected id defaultShell h]⟩
      { s with
          nextId := h + 1
          procs := aset h proc s.procs
          terminals := aset id h s.terminals
          conns := aset h conn s.conns }
  | some emsg =>
      let c := s.nextId
      let conn : Conn := ⟨id, none, WsReady.CLOSING,
        [OutMsg.error ("创建终端进程失败: " ++ emsg)]⟩
      { s with nextId := c + 1, conns := aset c conn s.conns }

/-- The `ws.on('message')` handler (registered only when spawn
succeeded, hence the `handle` guard): `input` forwards its payload
verbatim to `terminal.write`, `resize` applies `(cols, rows)` via
`terminal.resize`, an unrecognized `type` is only logged, and a
`JSON.parse` failure is caught and logged. -/
def handleMessage (cid : Nat) (m : RawMsg) (s : ServerState) : ServerState :=
  match alookup cid s.conns with
  | none => s
  | some c =>
    match c.handle with
    | none => s
    | some h =>
      match alookup h s.procs with
      | none => s
      | some p =>
        match m with
        | RawMsg.input d =>
            { s with procs := aset h { p with written := p.written ++ [d] } s.procs }
        | RawMsg.resize cols rows =>
            { s with procs := aset h { p with cols := cols, rows := rows } s.procs }
        | RawMsg.unknown _ => s
        | RawMsg.malformed => s

/-- The `terminal.onData` callback: forward the chunk as an
`output{data}` envelope when the socket is `OPEN`. -/
def handlePtyData (cid : Nat) (d : String) (s : ServerState) : ServerState :=
  match alookup cid s.conns with
  | none => s
  | some c =>
    match c.handle with
    | none => s
    | some _ =>
      if c.ready = WsReady.OPEN then
        { s with conns := aset cid { c with sent := c.sent ++ [OutMsg.output d] } s.conns }
      else s

/-- The `terminal.onExit` callback: the process is now dead
(`alive := false`, an exit event fires once); the handler performs
`terminals.delete(terminalId)` unconditionally, and when the socket is
still `OPEN` sends `exit{code, signal}` and calls `ws.close()`. -/
def handlePtyExit (cid : Nat) (code : Option Int) (sig : Option String)
    (s : ServerState) : ServerState :=
  match alookup cid s.conns with
  | none => s
  | some c =>
    match c.handle with
    | none => s
    | some h =>
      match alookup h s.procs with
      | none => s
      | some p =>
        if p.alive then
          let s0 := { s with procs := aset h { p with alive := false } s.procs }
          let s1 := { s0 with terminals := aerase c.terminalId s0.terminals }
          if c.ready = WsReady.OPEN then
            let c' : Conn := { c with sent := c.sent ++ [OutMsg.exit code sig],
                                      ready := WsReady.CLOSING }
            { s1 with conns := aset cid c' s1.conns }
          else s1
        else s

/-- The `ws.on('close')` and `ws.on('error')` handlers, whose bodies
are identical in the source: the socket is now `CLOSED`; then
`terminals.get(terminalId)` — if an entry is present, `terminal.kill()`
and `terminals.delete(terminalId)`, otherwise nothing. The event fires
once per socket, hence the `CLOSED` guard. -/
def handleSocketClose (cid : Nat) (s : ServerState) : ServerState :=
  match alookup cid s.conns with
  | none => s
  | some c =>
    if c.ready = WsReady.CLOSED then s else
      let s0 := { s with conns := aset cid { c with ready := WsReady.CLOSED } s.conns }
      match alookup c.terminalId s0.terminals with
      | none => s0
      | some h =>
        let s1 := match alookup h s0.procs with
          | some p => { s0 with procs := aset h { p with killCount := p.killCount + 1 } s0.procs }
          | none => s0
        { s1 with terminals := aerase c.terminalId s1.terminals }

/-- One `terminal.kill()` against handle `h`. -/
def kill1 (ps : List (Nat × PtyProc)) (h : Nat) : List (Nat × PtyProc) :=
  match alookup h ps with
  | some p => aset h { p with killCount := p.killCount + 1 } ps
  | none => ps

/-- The `process.on('SIGINT')` handler: `terminals.forEach` killing
every registered process, then `wss.close(...)` — so every session is
signaled before the listener begins closing, and `process.exit` waits
for the close callback. -/
def handleSigint (s : ServerState) : ServerState :=
  let procs' := (s.terminals.map Prod.snd).foldl kill1 s.procs
  { s with
      procs := procs'
      wss := if s.wss = WssState.listening then WssState.closing else s.wss }

/-- The `wss.close` callback: fires once the listener has actually
closed, and runs `process.exit(0)`. -/
def handleWssClosed (s : ServerState) : ServerState :=
  if s.wss = WssState.closing then
    { s with wss := WssState.closed, exited := true }
  else s

/-- One event-loop step. After `process.exit` nothing further runs. -/
def step (e : Event) (s : ServerState) : ServerState :=
  if s.exited then s else
  match e with
  | Event.connection id spawnErr => handleConnection id spawnErr s
  | Event.message cid m => handleMessage cid m s
  | Event.ptyData cid d => handlePtyData cid d s
  | Event.ptyExit cid code sig => handlePtyExit cid code sig s
  | Event.wsClose cid => handleSocketClose cid s
  | Event.wsError cid => handleSocketClose cid s
  | Event.sigint => handleSigint s
  | Event.wssClosed => handleWssClosed s

/-- The server's initial state: empty registry, no processes, no
connections, listener accepting. -/
def init : ServerState := ⟨0, [], [], [], WssState.listening, false⟩

/-- Run a sequence of events from the initial state. -/
def run (es : List Event) : ServerState := es.foldl (fun s e => step e s) init

/-- The `generateId()` values drawn along a trace, in order. -/
def connIds (es : List Event) : List String :=
  es.filterMap (fun e => match e with
    | Event.connection id _ => some id
    | _ => none)

/-! ### Association-list lemmas -/

theorem alookup_aset {α β : Type} [DecidableEq α] (k k' : α) (v : β) (m : List (α × β)) :
    alookup k (aset k' v m) = if k' = k then some v else alookup k m := by
  induction m with
  | nil => simp [alookup, aset]
  | cons hd tl ih =>
      obtain ⟨a, b⟩ := hd
      by_cases hak : a = k'
      · subst hak
        by_cases hk : a = k <;> simp [alookup, aset, hk]
      · by_cases hk : a = k
        · subst hk
          have : k' ≠ a := fun h => hak h.symm
          simp [alookup, aset, hak, this]
        · simp [alookup, aset, hak, hk, ih]

theorem alookup_aerase {α β : Type} [DecidableEq α] (k k' : α) (m : List (α × β)) :
    alookup k (aerase k' m) = if k' = k then none else alookup k m := by
  induction m with
  | nil => simp [alookup, aerase]
  | cons hd tl ih =>
      obtain ⟨a, b⟩ := hd
      by_cases hak : a = k'
      · subst hak
        rw [show aerase a ((a, b) :: tl) = aerase a tl from by simp [aerase], ih]
        by_cases hk : a = k
        · simp [hk]
        · simp [alookup, hk]
      · rw [show aerase k' ((a, b) :: tl) = (a, b) :: aerase k' tl from by
          simp [aerase, hak]]
        by_cases hk2 : a = k
        · subst hk2
          have hkk : k' ≠ a := fun hcontra => hak hcontra.symm
          simp [alookup, hkk]
        · simp [alookup, hk2, ih]

theorem mem_keys_aset {α β : Type} [DecidableEq α] (x k : α) (v : β) (m : List (α × β)) :
    x ∈ (aset k v m).map Prod.fst ↔ x = k ∨ x ∈ m.map Prod.fst := by
  induction m with
  | nil => simp [aset]
  | cons hd tl ih =>
      obtain ⟨a, b⟩ := hd
      by_cases hak : a = k
      · subst hak
        rw [show aset a v ((a, b) :: tl) = (a, v) :: tl from by simp [aset]]
        simp only [List.map_cons, List.mem_cons]
        tauto
      · simp only [aset, if_neg hak, List.map_cons, List.mem_cons, ih]
        tauto

theorem aerase_sublist {α β : Type} [DecidableEq α] (k : α) (m : List (α × β)) :
    (aerase k m).Sublist m := by
  induction m with
  | nil => simp [aerase]
  | cons hd tl ih =>
      obtain ⟨a, b⟩ := hd
      by_cases hak : a = k
      · simp only [aerase, hak, if_pos]
        exact ih.trans (List.sublist_cons_self _ _)
      · simp only [aerase, hak, if_neg, not_false_iff]
        exact ih.cons₂ _

theorem keysNodup_aset {α β : Type} [DecidableEq α] (k : α) (v : β) (m : List (α × β))
    (h : (m.map Prod.fst).Nodup) : ((aset k v m).map Prod.fst).Nodup := by
  induction m with
  | nil => simp [aset]
  | cons hd tl ih =>
      obtain ⟨a, b⟩ := hd
      simp only [List.map_cons, List.nodup_cons] at h
      by_cases hak : a = k
      · subst hak
        simpa [aset] using h
      · simp only [aset, hak, if_neg, not_false_iff, List.map_cons, List.nodup_cons]
        refine ⟨?_, ih h.2⟩
        rw [mem_keys_aset]
        rintro (rfl | hmem)
        · exact hak rfl
        · exact h.1 hmem

theorem keysNodup_aerase {α β : Type} [DecidableEq α] (k : α) (m : List (α × β))
    (h : (m.map Prod.fst).Nodup) : ((aerase k m).map Prod.fst).Nodup :=
  h.sublist (List.Sublist.map Prod.fst (aerase_sublist k m))

theorem alookup_isSome_mem_keys {α β : Type} [DecidableEq α] (k : α) (m : List (α × β)) :
    (alookup k m).isSome → k ∈ m.map Prod.fst := by
  induction m with
  | nil => simp [alookup]
  | cons hd tl ih =>
      obtain ⟨a, b⟩ := hd
      by_cases hak : a = k
      · intro _
        simp [hak]
      · intro hsm
        rw [show alookup k ((a, b) :: tl) = alookup k tl from by simp [alookup, hak]] at hsm
        simp only [List.map_cons]
        exact List.mem_cons_of_mem _ (ih hsm)

/-! ### Kill and trace helpers -/

/-- Increase a process's kill count by `n`. -/
def bump (n : Nat) (p : PtyProc) : PtyProc := { p with killCount := p.killCount + n }

theorem bump_bump (m n : Nat) (p : PtyProc) : bump m (bump n p) = bump (n + m) p := by
  simp [bump, Nat.add_assoc]

theorem alookup_kill1 (ps : List (Nat × PtyProc)) (h' h : Nat) :
    alookup h (kill1 ps h') =
      if h' = h then Option.map (bump 1) (alookup h ps) else alookup h ps := by
  unfold kill1
  rcases hl : alookup h' ps with _ | p
  · by_cases hh : h' = h
    · subst hh
      simp [hl]
    · simp [hh]
  · rw [alookup_aset]
    by_cases hh : h' = h
    · subst hh
      simp [hl, bump]
    · simp [hh]

theorem alookup_killAll (ks : List Nat) (ps : List (Nat × PtyProc)) (h : Nat) :
    alookup h (ks.foldl kill1 ps) =
      Option.map (bump (ks.count h)) (alookup h ps) := by
  induction ks generalizing ps with
  | nil =>
      rcases hl : alookup h ps with _ | p <;> simp [hl, bump]
  | cons x xs ihx =>
      rw [List.foldl_cons, ihx, alookup_kill1]
      rcases hl : alookup h ps with _ | p
      · by_cases hx : x = h <;> simp [hl, hx]
      · by_cases hx : x = h
        · subst hx
          have hcount : List.count x (x :: xs) = xs.count x + 1 := by
            simp [List.count_cons]
          simp [hl, hcount, bump_bump, Nat.add_comm]
        · have hcount : List.count h (x :: xs) = xs.count h := by
            simp [List.count_cons, Ne.symm hx]
          simp [hl, hx, hcount]

theorem run_concat (es : List Event) (e : Event) :
    run (es ++ [e]) = step e (run es) := by
  simp [run, List.foldl_append]

/-! ### The registry/ownership invariant

`Inv` collects the structural facts that hold in every state the
server can reach along a trace whose `generateId()` draws are pairwise
distinct: handles are allocated below the fresh counter, each process
handle is captured by at most one connection, session ids identify
connections uniquely, and the Session Registry contains an id exactly
when the owning connection's socket is `OPEN` and its process is still
running. -/

structure Inv (s : ServerState) : Prop where
  freshC : ∀ cid, (alookup cid s.conns).isSome → cid < s.nextId
  freshP : ∀ h, (alookup h s.procs).isSome → h < s.nextId
  freshH : ∀ cid c h, alookup cid s.conns = some c → c.handle = some h → h < s.nextId
  handleInj : ∀ cid₁ cid₂ c₁ c₂ h, alookup cid₁ s.conns = some c₁ →
    alookup cid₂ s.conns = some c₂ → c₁.handle = some h → c₂.handle = some h → cid₁ = cid₂
  tidInj : ∀ cid₁ cid₂ c₁ c₂, alookup cid₁ s.conns = some c₁ →
    alookup cid₂ s.conns = some c₂ → c₁.terminalId = c₂.terminalId → cid₁ = cid₂
  forward : ∀ id h, alookup id s.terminals = some h →
    ∃ cid c p, alookup cid s.conns = some c ∧ c.terminalId = id ∧ c.handle = some h ∧
      c.ready = WsReady.OPEN ∧ alookup h s.procs = some p ∧ p.alive = true
  backward : ∀ cid c h p, alookup cid s.conns = some c → c.handle = some h →
    alookup h s.procs = some p → p.alive = true → c.ready = WsReady.OPEN →
    alookup c.terminalId s.terminals = some h

theorem inv_init : Inv init := by
  refine ⟨?_, ?_, ?_, ?_, ?_, ?_, ?_⟩ <;> intros <;> simp_all [init, alookup]

theorem inv_wss (s : ServerState) (w : WssState) (b : Bool) (hI : Inv s) :
    Inv { s with wss := w, exited := b } :=
  ⟨hI.freshC, hI.freshP, hI.freshH, hI.handleInj, hI.tidInj, hI.forward, hI.backward⟩

/-- Replacing one process entry by a process with the same liveness
preserves the invariant (covers `terminal.write`, `terminal.resize`,
`terminal.kill`). -/
theorem inv_procUpd (s : ServerState) (h' : Nat) (p q : PtyProc)
    (hp : alookup h' s.procs = some p) (hq : q.alive = p.alive) (hI : Inv s) :
    Inv { s with procs := aset h' q s.procs } := by
  refine ⟨hI.freshC, ?_, hI.freshH, hI.handleInj, hI.tidInj, ?_, ?_⟩
  · intro h hw
    rw [alookup_aset] at hw
    by_cases hh : h' = h
    · subst hh
      exact hI.freshP h' (by simp [hp])
    · exact hI.freshP h (by simpa [hh] using hw)
  · intro id h hreg
    obtain ⟨cid, c, p₀, hc, htid, hhd, hrdy, hpl, hal⟩ := hI.forward id h hreg
    by_cases hh : h' = h
    · subst hh
      refine ⟨cid, c, q, hc, htid, hhd, hrdy, by simp [alookup_aset], ?_⟩
      rw [hq]
      rw [hp] at hpl
      cases hpl
      exact hal
    · exact ⟨cid, c, p₀, hc, htid, hhd, hrdy, by simp [alookup_aset, hh, hpl], hal⟩
  · intro cid c h p₀ hc hhd hpl hal hrdy
    rw [alookup_aset] at hpl
    by_cases hh : h' = h
    · subst hh
      simp only [if_pos rfl] at hpl
      cases hpl
      exact hI.backward cid c h' p hc hhd hp (by rw [← hq, hal]) hrdy
    · exact hI.backward cid c h p₀ hc hhd (by simpa [hh] using hpl) hal hrdy

/-- Appending envelopes to one connection's `sent` log preserves the
invariant (covers `ws.send` of `output` chunks). -/
theorem inv_connSent (s : ServerState) (cid : Nat) (c : Conn) (msgs : List OutMsg)
    (hc : alookup cid s.conns = some c) (hI : Inv s) :
    Inv { s with conns := aset cid { c with sent := c.sent ++ msgs } s.conns } := by
  have hlook : ∀ x, alookup x (aset cid { c with sent := c.sent ++ msgs } s.conns) =
      if cid = x then some { c with sent := c.sent ++ msgs } else alookup x s.conns := by
    intro x
    exact alookup_aset x cid _ s.conns
  refine ⟨?_, hI.freshP, ?_, ?_, ?_, ?_, ?_⟩
  · intro x hw
    rw [hlook] at hw
    by_cases hx : cid = x
    · subst hx
      exact hI.freshC cid (by simp [hc])
    · exact hI.freshC x (by simpa [hx] using hw)
  · intro x cx h hx hhd
    rw [hlook] at hx
    by_cases hxx : cid = x
    · subst hxx
      rw [if_pos rfl] at hx
      cases hx
      exact hI.freshH cid c h hc hhd
    · exact hI.freshH x cx h (by simpa [hxx] using hx) hhd
  · intro x₁ x₂ c₁ c₂ h h₁ h₂ hd₁ hd₂
    rw [hlook] at h₁ h₂
    by_cases hx1 : cid = x₁ <;> by_cases hx2 : cid = x₂
    · omega
    · subst hx1
      rw [if_pos rfl] at h₁
      cases h₁
      exact hI.handleInj cid x₂ c c₂ h hc (by simpa [hx2] using h₂) hd₁ hd₂
    · subst hx2
      rw [if_pos rfl] at h₂
      cases h₂
      exact hI.handleInj x₁ cid c₁ c h (by simpa [hx1] using h₁) hc hd₁ hd₂
    · exact hI.handleInj x₁ x₂ c₁ c₂ h (by simpa [hx1] using h₁)
        (by simpa [hx2] using h₂) hd₁ hd₂
  · intro x₁ x₂ c₁ c₂ h₁ h₂ htid
    rw [hlook] at h₁ h₂
    by_cases hx1 : cid = x₁ <;> by_cases hx2 : cid = x₂
    · omega
    · subst hx1
      rw [if_pos rfl] at h₁
      cases h₁
      exact hI.tidInj cid x₂ c c₂ hc (by simpa [hx2] using h₂) htid
    · subst hx2
      rw [if_pos rfl] at h₂
      cases h₂
      exact hI.tidInj x₁ cid c₁ c (by simpa [hx1] using h₁) hc htid
    · exact hI.tidInj x₁ x₂ c₁ c₂ (by simpa [hx1] using h₁) (by simpa [hx2] using h₂) htid
  · intro id h hreg
    obtain ⟨cid₀, c₀, p₀, hc₀, htid, hhd, hrdy, hpl, hal⟩ := hI.forward id h hreg
    by_cases hx : cid = cid₀
    · subst hx
      rw [hc] at hc₀
      cases hc₀
      exact ⟨cid, { c with sent := c.sent ++ msgs }, p₀, by simp [hlook], htid, hhd,
        hrdy, hpl, hal⟩
    · exact ⟨cid₀, c₀, p₀, by rw [hlook]; simp [hx, hc₀], htid, hhd, hrdy, hpl, hal⟩
  · intro x cx h p hx hhd hpl hal hrdy
    rw [hlook] at hx
    by_cases hxx : cid = x
    · subst hxx
      rw [if_pos rfl] at hx
      cases hx
      exact hI.backward cid c h p hc hhd hpl hal hrdy
    · exact hI.backward x cx h p (by simpa [hxx] using hx) hhd hpl hal hrdy

theorem connIds_append (es es' : List Event) :
    connIds (es ++ es') = connIds es ++ connIds es' := by
  simp [connIds, List.filterMap_append]

theorem alookup_aset_cases {α β : Type} [DecidableEq α] {k x : α} {v w : β}
    {m : List (α × β)} (hl : alookup x (aset k v m) = some w) :
    (k = x ∧ w = v) ∨ (k ≠ x ∧ alookup x m = some w) := by
  rw [alookup_aset] at hl
  by_cases hk : k = x
  · rw [if_pos hk] at hl
    exact Or.inl ⟨hk, (Option.some.inj hl).symm⟩
  · rw [if_neg hk] at hl
    exact Or.inr ⟨hk, hl⟩

theorem alookup_aerase_cases {α β : Type} [DecidableEq α] {k x : α} {w : β}
    {m : List (α × β)} (hl : alookup x (aerase k m) = some w) :
    k ≠ x ∧ alookup x m = some w := by
  rw [alookup_aerase] at hl
  by_cases hk : k = x
  · rw [if_pos hk] at hl
    cases hl
  · rw [if_neg hk] at hl
    exact ⟨hk, hl⟩

theorem inv_message (cid : Nat) (m : RawMsg) (s : ServerState) (hI : Inv s) :
    Inv (handleMessage cid m s) := by
  rcases hc : alookup cid s.conns with _ | c
  · simpa [handleMessage, hc] using hI
  · rcases hh : c.handle with _ | h
    · simpa [handleMessage, hc, hh] using hI
    · rcases hp : alookup h s.procs with _ | p
      · simpa [handleMessage, hc, hh, hp] using hI
      · cases m with
        | input d =>
            simpa [handleMessage, hc, hh, hp] using
              inv_procUpd s h p { p with written := p.written ++ [d] } hp rfl hI
        | resize cols rows =>
            simpa [handleMessage, hc, hh, hp] using
              inv_procUpd s h p { p with cols := cols, rows := rows } hp rfl hI
        | unknown ty => simpa [handleMessage, hc, hh, hp] using hI
        | malformed => simpa [handleMessage, hc, hh, hp] using hI

theorem inv_ptyData (cid : Nat) (d : String) (s : ServerState) (hI : Inv s) :
    Inv (handlePtyData cid d s) := by
  rcases hc : alookup cid s.conns with _ | c
  · simpa [handlePtyData, hc] using hI
  · rcases hh : c.handle with _ | h
    · simpa [handlePtyData, hc, hh] using hI
    · by_cases hr : c.ready = WsReady.OPEN
      · simpa [handlePtyData, hc, hh, hr] using
          inv_connSent s cid c [OutMsg.output d] hc hI
      · simpa [handlePtyData, hc, hh, hr] using hI

theorem inv_killAll (s : ServerState) (ks : List Nat) (hI : Inv s) :
    Inv { s with procs := ks.foldl kill1 s.procs } := by
  refine ⟨hI.freshC, ?_, hI.freshH, hI.handleInj, hI.tidInj, ?_, ?_⟩
  · intro h hw
    rw [alookup_killAll] at hw
    exact hI.freshP h (by simpa using hw)
  · intro id h hreg
    obtain ⟨cid, c, p, hc, htid, hhd, hrdy, hpl, hal⟩ := hI.forward id h hreg
    exact ⟨cid, c, bump (ks.count h) p, hc, htid, hhd, hrdy,
      by simp [alookup_killAll, hpl], by simpa [bump] using hal⟩
  · intro cid c h q hc hhd hpl hal hrdy
    rw [alookup_killAll] at hpl
    rcases hp : alookup h s.procs with _ | p
    · rw [hp] at hpl
      cases hpl
    · rw [hp] at hpl
      cases hpl
      exact hI.backward cid c h p hc hhd hp (by simpa [bump] using hal) hrdy

theorem inv_sigint (s : ServerState) (hI : Inv s) : Inv (handleSigint s) :=
  inv_wss _ _ _ (inv_killAll s (s.terminals.map Prod.snd) hI)

theorem inv_wssClosed (s : ServerState) (hI : Inv s) : Inv (handleWssClosed s) := by
  unfold handleWssClosed
  by_cases hw : s.wss = WssState.closing
  · rw [if_pos hw]
    exact inv_wss _ _ _ hI
  · rw [if_neg hw]
    exact hI

theorem aset_self {α β : Type} [DecidableEq α] {k : α} {v : β} {m : List (α × β)}
    (h : alookup k m = some v) : aset k v m = m := by
  induction m with
  | nil => cases h
  | cons hd tl ih =>
      obtain ⟨a, b⟩ := hd
      by_cases hak : a = k
      · subst hak
        rw [show alookup a ((a, b) :: tl) = some b from by simp [alookup]] at h
        cases h
        simp [aset]
      · rw [show alookup k ((a, b) :: tl) = alookup k tl from by simp [alookup, hak]] at h
        simp [aset, hak, ih h]

theorem aerase_of_none {α β : Type} [DecidableEq α] {k : α} {m : List (α × β)}
    (h : alookup k m = none) : aerase k m = m := by
  induction m with
  | nil => simp [aerase]
  | cons hd tl ih =>
      obtain ⟨a, b⟩ := hd
      by_cases hak : a = k
      · subst hak
        rw [show alookup a ((a, b) :: tl) = some b from by simp [alookup]] at h
        cases h
      · rw [show alookup k ((a, b) :: tl) = alookup k tl from by simp [alookup, hak]] at h
        simp [aerase, hak, ih h]

/-- Spawn success preserves the invariant, provided the drawn id is
not the id of any existing connection. -/
theorem inv_spawn (id : String) (s : ServerState) (hI : Inv s)
    (hid : ∀ cid c, alookup cid s.conns = some c → c.terminalId ≠ id) :
    Inv { s with
      nextId := s.nextId + 1
      procs := aset s.nextId ⟨s.nextId, 80, 30, [], 0, true⟩ s.procs
      terminals := aset id s.nextId s.terminals
      conns := aset s.nextId ⟨id, some s.nextId, WsReady.OPEN,
        [OutMsg.connected id defaultShell s.nextId]⟩ s.conns } := by
  constructor
  · intro x hw
    show x < s.nextId + 1
    rw [alookup_aset] at hw
    by_cases hx : s.nextId = x
    · omega
    · have := hI.freshC x (by simpa [hx] using hw)
      omega
  · intro x hw
    show x < s.nextId + 1
    rw [alookup_aset] at hw
    by_cases hx : s.nextId = x
    · omega
    · have := hI.freshP x (by simpa [hx] using hw)
      omega
  · intro x c h hx hhd
    show h < s.nextId + 1
    rcases alookup_aset_cases hx with ⟨hxx, rfl⟩ | ⟨hxx, hold⟩
    · have hhn : s.nextId = h := Option.some.inj hhd
      omega
    · have := hI.freshH x c h hold hhd
      omega
  · intro x₁ x₂ c₁ c₂ h h₁ h₂ hd₁ hd₂
    rcases alookup_aset_cases h₁ with ⟨he₁, rfl⟩ | ⟨hne₁, ho₁⟩ <;>
      rcases alookup_aset_cases h₂ with ⟨he₂, rfl⟩ | ⟨hne₂, ho₂⟩
    · omega
    · have hhn : s.nextId = h := Option.some.inj hd₁
      subst hhn
      exact absurd (hI.freshH x₂ c₂ _ ho₂ hd₂) (lt_irrefl _)
    · have hhn : s.nextId = h := Option.some.inj hd₂
      subst hhn
      exact absurd (hI.freshH x₁ c₁ _ ho₁ hd₁) (lt_irrefl _)
    · exact hI.handleInj x₁ x₂ c₁ c₂ h ho₁ ho₂ hd₁ hd₂
  · intro x₁ x₂ c₁ c₂ h₁ h₂ htid
    rcases alookup_aset_cases h₁ with ⟨he₁, rfl⟩ | ⟨hne₁, ho₁⟩ <;>
      rcases alookup_aset_cases h₂ with ⟨he₂, rfl⟩ | ⟨hne₂, ho₂⟩
    · omega
    · exact absurd htid.symm (hid x₂ c₂ ho₂)
    · exact absurd htid (hid x₁ c₁ ho₁)
    · exact hI.tidInj x₁ x₂ c₁ c₂ ho₁ ho₂ htid
  · intro id' h hreg
    rcases alookup_aset_cases hreg with ⟨rfl, rfl⟩ | ⟨hne, hold⟩
    · refine ⟨s.nextId,
        ⟨id, some s.nextId, WsReady.OPEN, [OutMsg.connected id defaultShell s.nextId]⟩,
        ⟨s.nextId, 80, 30, [], 0, true⟩, ?_, rfl, rfl, rfl, ?_, rfl⟩
      · rw [alookup_aset]
        simp
      · rw [alookup_aset]
        simp
    · obtain ⟨cid, c, p, hcl, htid, hhd, hrdy, hpl, hal⟩ := hI.forward id' h hold
      have hcn : s.nextId ≠ cid := by
        have := hI.freshC cid (by simp [hcl])
        omega
      have hhn : s.nextId ≠ h := by
        have := hI.freshP h (by simp [hpl])
        omega
      refine ⟨cid, c, p, ?_, htid, hhd, hrdy, ?_, hal⟩
      · rw [alookup_aset]
        simp [hcn, hcl]
      · rw [alookup_aset]
        simp [hhn, hpl]
  · intro x c h p hx hhd hpl hal hrdy
    rcases alookup_aset_cases hx with ⟨hxn, rfl⟩ | ⟨hxn, hold⟩
    · have hhn : s.nextId = h := Option.some.inj hhd
      subst hhn
      rw [alookup_aset]
      simp
    · have hlt : h < s.nextId := hI.freshH x c h hold hhd
      have hpl' : alookup h s.procs = some p := by
        rw [alookup_aset] at hpl
        simpa [show s.nextId ≠ h by omega] using hpl
      have hback := hI.backward x c h p hold hhd hpl' hal hrdy
      have htid : id ≠ c.terminalId := Ne.symm (hid x c hold)
      rw [alookup_aset]
      simp [htid, hback]

/-- Spawn failure preserves the invariant: only a fresh connection
with no process handle is added. -/
theorem inv_spawnFail (id emsg : String) (s : ServerState) (hI : Inv s)
    (hid : ∀ cid c, alookup cid s.conns = some c → c.terminalId ≠ id) :
    Inv { s with
      nextId := s.nextId + 1
      conns := aset s.nextId ⟨id, none, WsReady.CLOSING,
        [OutMsg.error ("创建终端进程失败: " ++ emsg)]⟩ s.conns } := by
  constructor
  · intro x hw
    show x < s.nextId + 1
    rw [alookup_aset] at hw
    by_cases hx : s.nextId = x
    · omega
    · have := hI.freshC x (by simpa [hx] using hw)
      omega
  · intro x hw
    show x < s.nextId + 1
    have := hI.freshP x hw
    omega
  · intro x c h hx hhd
    show h < s.nextId + 1
    rcases alookup_aset_cases hx with ⟨hxx, rfl⟩ | ⟨hxx, hold⟩
    · cases hhd
    · have := hI.freshH x c h hold hhd
      omega
  · intro x₁ x₂ c₁ c₂ h h₁ h₂ hd₁ hd₂
    rcases alookup_aset_cases h₁ with ⟨he₁, rfl⟩ | ⟨hne₁, ho₁⟩ <;>
      rcases alookup_aset_cases h₂ with ⟨he₂, rfl⟩ | ⟨hne₂, ho₂⟩
    · omega
    · cases hd₁
    · cases hd₂
    · exact hI.handleInj x₁ x₂ c₁ c₂ h ho₁ ho₂ hd₁ hd₂
  · intro x₁ x₂ c₁ c₂ h₁ h₂ htid
    rcases alookup_aset_cases h₁ with ⟨he₁, rfl⟩ | ⟨hne₁, ho₁⟩ <;>
      rcases alookup_aset_cases h₂ with ⟨he₂, rfl⟩ | ⟨hne₂, ho₂⟩
    · omega
    · exact absurd htid.symm (hid x₂ c₂ ho₂)
    · exact absurd htid (hid x₁ c₁ ho₁)
    · exact hI.tidInj x₁ x₂ c₁ c₂ ho₁ ho₂ htid
  · intro id' h hreg
    obtain ⟨cid, c, p, hcl, htid, hhd, hrdy, hpl, hal⟩ := hI.forward id' h hreg
    have hcn : s.nextId ≠ cid := by
      have := hI.freshC cid (by simp [hcl])
      omega
    refine ⟨cid, c, p, ?_, htid, hhd, hrdy, hpl, hal⟩
    rw [alookup_aset]
    simp [hcn, hcl]
  · intro x c h p hx hhd hpl hal hrdy
    rcases alookup_aset_cases hx with ⟨hxn, rfl⟩ | ⟨hxn, hold⟩
    · cases hhd
    · exact hI.backward x c h p hold hhd hpl hal hrdy

/-- The `connection` handler preserves the invariant whenever the
drawn id differs from every live connection's id. -/
theorem inv_connection (id : String) (er : Option String) (s : ServerState) (hI : Inv s)
    (hid : ∀ cid c, alookup cid s.conns = some c → c.terminalId ≠ id) :
    Inv (handleConnection id er s) := by
  by_cases hwss : s.wss = WssState.listening
  · rcases er with _ | emsg
    · simpa [handleConnection, hwss] using inv_spawn id s hI hid
    · simpa [handleConnection, hwss] using inv_spawnFail id emsg s hI hid
  · simpa [handleConnection, hwss] using hI

/-- The state change of `onExit` (process dead, registry entry for the
closure's `terminalId` deleted, the connection possibly replaced by one
with the same id and handle that is no longer `OPEN`) preserves the
invariant. -/
theorem inv_exitUpd (cid : Nat) (c : Conn) (h : Nat) (p : PtyProc) (c' : Conn)
    (s : ServerState) (hI : Inv s)
    (hc : alookup cid s.conns = some c) (hhd : c.handle = some h)
    (hp : alookup h s.procs = some p)
    (hc' : c'.handle = c.handle ∧ c'.terminalId = c.terminalId ∧ c'.ready ≠ WsReady.OPEN) :
    Inv { s with
      procs := aset h { p with alive := false } s.procs
      terminals := aerase c.terminalId s.terminals
      conns := aset cid c' s.conns } := by
  obtain ⟨hc'h, hc't, hc'r⟩ := hc'
  constructor
  · intro x hw
    show x < s.nextId
    rw [alookup_aset] at hw
    by_cases hx : cid = x
    · subst hx
      exact hI.freshC cid (by simp [hc])
    · exact hI.freshC x (by simpa [hx] using hw)
  · intro x hw
    show x < s.nextId
    rw [alookup_aset] at hw
    by_cases hx : h = x
    · subst hx
      exact hI.freshP h (by simp [hp])
    · exact hI.freshP x (by simpa [hx] using hw)
  · intro x cx hx hcx hhdx
    rcases alookup_aset_cases hcx with ⟨hxx, rfl⟩ | ⟨hxx, hold⟩
    · rw [hc'h] at hhdx
      exact hI.freshH cid c hx hc hhdx
    · exact hI.freshH x cx hx hold hhdx
  · intro x₁ x₂ c₁ c₂ hx h₁ h₂ hd₁ hd₂
    rcases alookup_aset_cases h₁ with ⟨he₁, rfl⟩ | ⟨hne₁, ho₁⟩ <;>
      rcases alookup_aset_cases h₂ with ⟨he₂, rfl⟩ | ⟨hne₂, ho₂⟩
    · omega
    · rw [hc'h] at hd₁
      exact hI.handleInj x₁ x₂ c c₂ hx (he₁ ▸ hc) ho₂ hd₁ hd₂
    · rw [hc'h] at hd₂
      exact hI.handleInj x₁ x₂ c₁ c hx ho₁ (he₂ ▸ hc) hd₁ hd₂
    · exact hI.handleInj x₁ x₂ c₁ c₂ hx ho₁ ho₂ hd₁ hd₂
  · intro x₁ x₂ c₁ c₂ h₁ h₂ htid
    rcases alookup_aset_cases h₁ with ⟨he₁, rfl⟩ | ⟨hne₁, ho₁⟩ <;>
      rcases alookup_aset_cases h₂ with ⟨he₂, rfl⟩ | ⟨hne₂, ho₂⟩
    · omega
    · rw [hc't] at htid
      exact hI.tidInj x₁ x₂ c c₂ (he₁ ▸ hc) ho₂ htid
    · rw [hc't] at htid
      exact hI.tidInj x₁ x₂ c₁ c ho₁ (he₂ ▸ hc) htid
    · exact hI.tidInj x₁ x₂ c₁ c₂ ho₁ ho₂ htid
  · intro id' h' hreg
    obtain ⟨hne, hold⟩ := alookup_aerase_cases hreg
    obtain ⟨cid₀, c₀, p₀, hcl, htid, hhd₀, hrdy, hpl, hal⟩ := hI.forward id' h' hold
    have hcne : cid₀ ≠ cid := by
      intro hq
      subst hq
      have hcc : c₀ = c := Option.some.inj (hcl.symm.trans hc)
      rw [hcc] at htid
      exact hne htid
    have hhne : h' ≠ h := by
      intro hq
      subst hq
      exact hcne (hI.handleInj cid₀ cid c₀ c h' hcl hc hhd₀ hhd)
    have hcne' : cid ≠ cid₀ := Ne.symm hcne
    have hhne' : h ≠ h' := Ne.symm hhne
    refine ⟨cid₀, c₀, p₀, ?_, htid, hhd₀, hrdy, ?_, hal⟩
    · rw [alookup_aset]
      simp [hcne', hcl]
    · rw [alookup_aset]
      simp [hhne', hpl]
  · intro x cx h₂ q hx hhd₂ hpl hal hrdy
    rcases alookup_aset_cases hx with ⟨hxn, rfl⟩ | ⟨hxn, hold⟩
    · exact absurd hrdy hc'r
    · have hhne : h ≠ h₂ := by
        intro hq
        subst hq
        rw [alookup_aset] at hpl
        rw [if_pos rfl] at hpl
        cases hpl
        cases hal
      have hpl' : alookup h₂ s.procs = some q := by
        rw [alookup_aset] at hpl
        simpa [hhne] using hpl
      have hback := hI.backward x cx h₂ q hold hhd₂ hpl' hal hrdy
      have htne : c.terminalId ≠ cx.terminalId := by
        intro hq
        exact hxn (hI.tidInj cid x c cx hc hold hq)
      rw [alookup_aerase]
      simp [htne, hback]

theorem inv_ptyExit (cid : Nat) (code : Option Int) (sig : Option String)
    (s : ServerState) (hI : Inv s) : Inv (handlePtyExit cid code sig s) := by
  rcases hc : alookup cid s.conns with _ | c
  · simpa [handlePtyExit, hc] using hI
  · rcases hh : c.handle with _ | h
    · simpa [handlePtyExit, hc, hh] using hI
    · rcases hp : alookup h s.procs with _ | p
      · simpa [handlePtyExit, hc, hh, hp] using hI
      · by_cases hal : p.alive = true
        · by_cases hr : c.ready = WsReady.OPEN
          · simpa [handlePtyExit, hc, hh, hp, hal, hr] using
              inv_exitUpd cid c h p
                { c with sent := c.sent ++ [OutMsg.exit code sig], ready := WsReady.CLOSING }
                s hI hc hh hp ⟨rfl, rfl, by simp⟩
          · have := inv_exitUpd cid c h p c s hI hc hh hp ⟨rfl, rfl, hr⟩
            rw [aset_self hc] at this
            simpa [handlePtyExit, hc, hh, hp, hal, hr] using this
        · simpa [handlePtyExit, hc, hh, hp, hal] using hI

/-- The state change of the socket `close`/`error` handler (connection
now `CLOSED`, registry entry for its id deleted, processes changed
only in their kill counts) preserves the invariant. -/
theorem inv_closeReg (cid : Nat) (c : Conn) (s : ServerState) (ps' : List (Nat × PtyProc))
    (hI : Inv s) (hc : alookup cid s.conns = some c)
    (hfwd : ∀ x q, alookup x ps' = some q →
      ∃ p₀, alookup x s.procs = some p₀ ∧ q.alive = p₀.alive)
    (hbwd : ∀ x p₀, alookup x s.procs = some p₀ →
      ∃ q, alookup x ps' = some q ∧ q.alive = p₀.alive) :
    Inv { s with
      procs := ps'
      terminals := aerase c.terminalId s.terminals
      conns := aset cid { c with ready := WsReady.CLOSED } s.conns } := by
  constructor
  · intro x hw
    show x < s.nextId
    rw [alookup_aset] at hw
    by_cases hx : cid = x
    · subst hx
      exact hI.freshC cid (by simp [hc])
    · exact hI.freshC x (by simpa [hx] using hw)
  · intro x hw
    show x < s.nextId
    rcases hq : alookup x ps' with _ | q
    · rw [hq] at hw
      cases hw
    · obtain ⟨p₀, hp₀, _⟩ := hfwd x q hq
      exact hI.freshP x (by simp [hp₀])
  · intro x cx hx hcx hhdx
    rcases alookup_aset_cases hcx with ⟨hxx, rfl⟩ | ⟨hxx, hold⟩
    · exact hI.freshH cid c hx hc hhdx
    · exact hI.freshH x cx hx hold hhdx
  · intro x₁ x₂ c₁ c₂ hx h₁ h₂ hd₁ hd₂
    rcases alookup_aset_cases h₁ with ⟨he₁, rfl⟩ | ⟨hne₁, ho₁⟩ <;>
      rcases alookup_aset_cases h₂ with ⟨he₂, rfl⟩ | ⟨hne₂, ho₂⟩
    · omega
    · exact hI.handleInj x₁ x₂ c c₂ hx (he₁ ▸ hc) ho₂ hd₁ hd₂
    · exact hI.handleInj x₁ x₂ c₁ c hx ho₁ (he₂ ▸ hc) hd₁ hd₂
    · exact hI.handleInj x₁ x₂ c₁ c₂ hx ho₁ ho₂ hd₁ hd₂
  · intro x₁ x₂ c₁ c₂ h₁ h₂ htid
    rcases alookup_aset_cases h₁ with ⟨he₁, rfl⟩ | ⟨hne₁, ho₁⟩ <;>
      rcases alookup_aset_cases h₂ with ⟨he₂, rfl⟩ | ⟨hne₂, ho₂⟩
    · omega
    · exact hI.tidInj x₁ x₂ c c₂ (he₁ ▸ hc) ho₂ htid
    · exact hI.tidInj x₁ x₂ c₁ c ho₁ (he₂ ▸ hc) htid
    · exact hI.tidInj x₁ x₂ c₁ c₂ ho₁ ho₂ htid
  · intro id' h' hreg
    obtain ⟨hne, hold⟩ := alookup_aerase_cases hreg
    obtain ⟨cid₀, c₀, p₀, hcl, htid, hhd₀, hrdy, hpl, hal⟩ := hI.forward id' h' hold
    have hcne : cid ≠ cid₀ := by
      intro hq
      subst hq
      have hcc : c₀ = c := Option.some.inj (hcl.symm.trans hc)
      rw [hcc] at htid
      exact hne htid
    obtain ⟨q, hq, hqal⟩ := hbwd h' p₀ hpl
    refine ⟨cid₀, c₀, q, ?_, htid, hhd₀, hrdy, hq, by rw [hqal, hal]⟩
    rw [alookup_aset]
    simp [hcne, hcl]
  · intro x cx h₂ q hx hhd₂ hpl hal hrdy
    rcases alookup_aset_cases hx with ⟨hxn, rfl⟩ | ⟨hxn, hold⟩
    · cases hrdy
    · obtain ⟨p₀, hp₀, hpal⟩ := hfwd h₂ q hpl
      have hback := hI.backward x cx h₂ p₀ hold hhd₂ hp₀ (by rw [← hpal, hal]) hrdy
      have htne : c.terminalId ≠ cx.terminalId := by
        intro hq
        exact hxn (hI.tidInj cid x c cx hc hold hq)
      rw [alookup_aerase]
      simp [htne, hback]

theorem inv_socketClose (cid : Nat) (s : ServerState) (hI : Inv s) :
    Inv (handleSocketClose cid s) := by
  rcases hc : alookup cid s.conns with _ | c
  · simpa [handleSocketClose, hc] using hI
  · by_cases hr : c.ready = WsReady.CLOSED
    · simpa [handleSocketClose, hc, hr] using hI
    · rcases ht : alookup c.terminalId s.terminals with _ | h
      · have hres := inv_closeReg cid c s s.procs hI hc
          (fun x q hq => ⟨q, hq, rfl⟩) (fun x p₀ hp₀ => ⟨p₀, hp₀, rfl⟩)
        rw [aerase_of_none ht] at hres
        simpa [handleSocketClose, hc, hr, ht] using hres
      · rcases hp : alookup h s.procs with _ | p
        · have hres := inv_closeReg cid c s s.procs hI hc
            (fun x q hq => ⟨q, hq, rfl⟩) (fun x p₀ hp₀ => ⟨p₀, hp₀, rfl⟩)
          simpa [handleSocketClose, hc, hr, ht, hp] using hres
        · have hres := inv_closeReg cid c s
            (aset h { p with killCount := p.killCount + 1 } s.procs) hI hc ?_ ?_
          · simpa [handleSocketClose, hc, hr, ht, hp] using hres
          · intro x q hq
            rcases alookup_aset_cases hq with ⟨hxx, rfl⟩ | ⟨hxx, holdq⟩
            · exact ⟨p, hxx ▸ hp, rfl⟩
            · exact ⟨q, holdq, rfl⟩
          · intro x p₀ hp₀
            by_cases hxx : h = x
            · subst hxx
              have hpp : p₀ = p := Option.some.inj (hp₀.symm.trans hp)
              subst hpp
              exact ⟨{ p₀ with killCount := p₀.killCount + 1 }, by rw [alookup_aset]; simp, rfl⟩
            · exact ⟨p₀, by rw [alookup_aset]; simp [hxx, hp₀], rfl⟩

theorem inv_step (e : Event) (s : ServerState) (hI : Inv s)
    (hid : ∀ id er, e = Event.connection id er →
      ∀ cid c, alookup cid s.conns = some c → c.terminalId ≠ id) :
    Inv (step e s) := by
  cases hex : s.exited
  · cases e with
    | connection id er => simpa [step, hex] using inv_connection id er s hI (hid id er rfl)
    | message cid m => simpa [step, hex] using inv_message cid m s hI
    | ptyData cid d => simpa [step, hex] using inv_ptyData cid d s hI
    | ptyExit cid code sig => simpa [step, hex] using inv_ptyExit cid code sig s hI
    | wsClose cid => simpa [step, hex] using inv_socketClose cid s hI
    | wsError cid => simpa [step, hex] using inv_socketClose cid s hI
    | sigint => simpa [step, hex] using inv_sigint s hI
    | wssClosed => simpa [step, hex] using inv_wssClosed s hI
  · simpa [step, hex] using hI

/-- Every connection present after a step either existed before with
the same session id, or was created by this step's `connection` event
(and then carries that event's id). -/
theorem tids_step (e : Event) (s : ServerState) (cid : Nat) (c : Conn)
    (hc : alookup cid (step e s).conns = some c) :
    (∃ c₀, alookup cid s.conns = some c₀ ∧ c₀.terminalId = c.terminalId) ∨
    (∃ er, e = Event.connection c.terminalId er) := by
  cases hex : s.exited
  case true =>
    rw [show step e s = s from by simp [step, hex]] at hc
    exact Or.inl ⟨c, hc, rfl⟩
  case false =>
  cases e with
  | connection id er =>
      by_cases hwss : s.wss = WssState.listening
      · rcases er with _ | emsg
        · rw [show (step (Event.connection id none) s).conns =
              aset s.nextId ⟨id, some s.nextId, WsReady.OPEN,
                [OutMsg.connected id defaultShell s.nextId]⟩ s.conns from by
            simp [step, hex, handleConnection, hwss]] at hc
          rcases alookup_aset_cases hc with ⟨hxx, rfl⟩ | ⟨hxx, hold⟩
          · exact Or.inr ⟨none, rfl⟩
          · exact Or.inl ⟨c, hold, rfl⟩
        · rw [show (step (Event.connection id (some emsg)) s).conns =
              aset s.nextId ⟨id, none, WsReady.CLOSING,
                [OutMsg.error ("创建终端进程失败: " ++ emsg)]⟩ s.conns from by
            simp [step, hex, handleConnection, hwss]] at hc
          rcases alookup_aset_cases hc with ⟨hxx, rfl⟩ | ⟨hxx, hold⟩
          · exact Or.inr ⟨some emsg, rfl⟩
          · exact Or.inl ⟨c, hold, rfl⟩
      · rw [show step (Event.connection id er) s = s from by
          simp [step, hex, handleConnection, hwss]] at hc
        exact Or.inl ⟨c, hc, rfl⟩
  | message cid' m =>
      refine Or.inl ⟨c, ?_, rfl⟩
      rcases hc0 : alookup cid' s.conns with _ | c0
      · rwa [show (step (Event.message cid' m) s).conns = s.conns from by
          simp [step, hex, handleMessage, hc0]] at hc
      · rcases hh : c0.handle with _ | h
        · rwa [show (step (Event.message cid' m) s).conns = s.conns from by
            simp [step, hex, handleMessage, hc0, hh]] at hc
        · rcases hp : alookup h s.procs with _ | p
          · rwa [show (step (Event.message cid' m) s).conns = s.conns from by
              simp [step, hex, handleMessage, hc0, hh, hp]] at hc
          · cases m <;>
              rwa [show (step (Event.message cid' _) s).conns = s.conns from by
                simp [step, hex, handleMessage, hc0, hh, hp]] at hc
  | ptyData cid' d =>
      rcases hc0 : alookup cid' s.conns with _ | c0
      · rw [show (step (Event.ptyData cid' d) s).conns = s.conns from by
          simp [step, hex, handlePtyData, hc0]] at hc
        exact Or.inl ⟨c, hc, rfl⟩
      · rcases hh : c0.handle with _ | h
        · rw [show (step (Event.ptyData cid' d) s).conns = s.conns from by
            simp [step, hex, handlePtyData, hc0, hh]] at hc
          exact Or.inl ⟨c, hc, rfl⟩
        · by_cases hr : c0.ready = WsReady.OPEN
          · rw [show (step (Event.ptyData cid' d) s).conns =
                aset cid' { c0 with sent := c0.sent ++ [OutMsg.output d] } s.conns from by
              simp [step, hex, handlePtyData, hc0, hh, hr]] at hc
            rcases alookup_aset_cases hc with ⟨hxx, rfl⟩ | ⟨hxx, hold⟩
            · exact Or.inl ⟨c0, hxx ▸ hc0, rfl⟩
            · exact Or.inl ⟨c, hold, rfl⟩
          · rw [show (step (Event.ptyData cid' d) s).conns = s.conns from by
              simp [step, hex, handlePtyData, hc0, hh, hr]] at hc
            exact Or.inl ⟨c, hc, rfl⟩
  | ptyExit cid' code sig =>
      rcases hc0 : alookup cid' s.conns with _ | c0
      · rw [show (step (Event.ptyExit cid' code sig) s).conns = s.conns from by
          simp [step, hex, handlePtyExit, hc0]] at hc
        exact Or.inl ⟨c, hc, rfl⟩
      · rcases hh : c0.handle with _ | h
        · rw [show (step (Event.ptyExit cid' code sig) s).conns = s.conns from by
            simp [step, hex, handlePtyExit, hc0, hh]] at hc
          exact Or.inl ⟨c, hc, rfl⟩
        · rcases hp : alookup h s.procs with _ | p
          · rw [show (step (Event.ptyExit cid' code sig) s).conns = s.conns from by
              simp [step, hex, handlePtyExit, hc0, hh, hp]] at hc
            exact Or.inl ⟨c, hc, rfl⟩
          · by_cases hal : p.alive = true
            · by_cases hr : c0.ready = WsReady.OPEN
              · have hconns : (step (Event.ptyExit cid' code sig) s).conns =
                    aset cid' { c0 with sent := c0.sent ++ [OutMsg.exit code sig], ready := WsReady.CLOSING } s.conns := by
                  simp [step, hex, handlePtyExit, hc0, hh, hp, hal, hr]
                rw [hconns] at hc
                rcases alookup_aset_cases hc with ⟨hxx, rfl⟩ | ⟨hxx, hold⟩
                · exact Or.inl ⟨c0, hxx ▸ hc0, rfl⟩
                · exact Or.inl ⟨c, hold, rfl⟩
              · rw [show (step (Event.ptyExit cid' code sig) s).conns = s.conns from by
                  simp [step, hex, handlePtyExit, hc0, hh, hp, hal, hr]] at hc
                exact Or.inl ⟨c, hc, rfl⟩
            · rw [show (step (Event.ptyExit cid' code sig) s).conns = s.conns from by
                simp [step, hex, handlePtyExit, hc0, hh, hp, hal]] at hc
              exact Or.inl ⟨c, hc, rfl⟩
  | wsClose cid' =>
      rcases hc0 : alookup cid' s.conns with _ | c0
      · rw [show (step (Event.wsClose cid') s).conns = s.conns from by
          simp [step, hex, handleSocketClose, hc0]] at hc
        exact Or.inl ⟨c, hc, rfl⟩
      · by_cases hr : c0.ready = WsReady.CLOSED
        · rw [show (step (Event.wsClose cid') s).conns = s.conns from by
            simp [step, hex, handleSocketClose, hc0, hr]] at hc
          exact Or.inl ⟨c, hc, rfl⟩
        · have hconns : (step (Event.wsClose cid') s).conns =
              aset cid' { c0 with ready := WsReady.CLOSED } s.conns := by
            rcases ht : alookup c0.terminalId s.terminals with _ | h
            · simp [step, hex, handleSocketClose, hc0, hr, ht]
            · rcases hp : alookup h s.procs with _ | p <;>
                simp [step, hex, handleSocketClose, hc0, hr, ht, hp]
          rw [hconns] at hc
          rcases alookup_aset_cases hc with ⟨hxx, rfl⟩ | ⟨hxx, hold⟩
          · exact Or.inl ⟨c0, hxx ▸ hc0, rfl⟩
          · exact Or.inl ⟨c, hold, rfl⟩
  | wsError cid' =>
      rcases hc0 : alookup cid' s.conns with _ | c0
      · rw [show (step (Event.wsError cid') s).conns = s.conns from by
          simp [step, hex, handleSocketClose, hc0]] at hc
        exact Or.inl ⟨c, hc, rfl⟩
      · by_cases hr : c0.ready = WsReady.CLOSED
        · rw [show (step (Event.wsError cid') s).conns = s.conns from by
            simp [step, hex, handleSocketClose, hc0, hr]] at hc
          exact Or.inl ⟨c, hc, rfl⟩
        · have hconns : (step (Event.wsError cid') s).conns =
              aset cid' { c0 with ready := WsReady.CLOSED } s.conns := by
            rcases ht : alookup c0.terminalId s.terminals with _ | h
            · simp [step, hex, handleSocketClose, hc0, hr, ht]
            · rcases hp : alookup h s.procs with _ | p <;>
                simp [step, hex, handleSocketClose, hc0, hr, ht, hp]
          rw [hconns] at hc
          rcases alookup_aset_cases hc with ⟨hxx, rfl⟩ | ⟨hxx, hold⟩
          · exact Or.inl ⟨c0, hxx ▸ hc0, rfl⟩
          · exact Or.inl ⟨c, hold, rfl⟩
  | sigint =>
      rw [show (step Event.sigint s).conns = s.conns from by
        simp [step, hex, handleSigint]] at hc
      exact Or.inl ⟨c, hc, rfl⟩
  | wssClosed =>
      have hconns : (step Event.wssClosed s).conns = s.conns := by
        by_cases hw : s.wss = WssState.closing <;>
          simp [step, hex, handleWssClosed, hw]
      rw [hconns] at hc
      exact Or.inl ⟨c, hc, rfl⟩

/-- Along any trace whose `generateId()` draws are pairwise distinct,
the ownership invariant holds and every live connection's id is one of
the draws. -/
theorem inv_run (es : List Event) (hnd : (connIds es).Nodup) :
    Inv (run es) ∧
      ∀ cid c, alookup cid (run es).conns = some c → c.terminalId ∈ connIds es := by
  induction es using List.reverseRecOn with
  | nil =>
      refine ⟨inv_init, ?_⟩
      intro cid c hc
      simp [run, init, alookup] at hc
  | append_singleton es e ih =>
      rw [connIds_append] at hnd
      obtain ⟨hnd₁, hnd₂, hdisj⟩ := List.nodup_append.mp hnd
      obtain ⟨hInv, htids⟩ := ih hnd₁
      have hid : ∀ id er, e = Event.connection id er →
          ∀ cid c, alookup cid (run es).conns = some c → c.terminalId ≠ id := by
        intro id er he cid c hcl htid
        subst he
        have hmem : id ∈ connIds es := by
          rw [← htid]
          exact htids cid c hcl
        have hmem' : id ∈ connIds [Event.connection id er] := by simp [connIds]
        exact hdisj hmem hmem'
      rw [run_concat]
      refine ⟨inv_step e (run es) hInv hid, ?_⟩
      intro cid c hc
      rw [connIds_append]
      rcases tids_step e (run es) cid c hc with ⟨c₀, hc₀, htid⟩ | ⟨er, rfl⟩
      · exact List.mem_append_left _ (htid ▸ htids cid c₀ hc₀)
      · refine List.mem_append_right _ ?_
        simp [connIds]

/-- Every step preserves key uniqueness of the `terminals` Map
(JS `Map` semantics: `set` replaces, `delete` removes). -/
theorem terminals_keysNodup_step (e : Event) (s : ServerState)
    (hnd : (s.terminals.map Prod.fst).Nodup) :
    ((step e s).terminals.map Prod.fst).Nodup := by
  cases hex : s.exited
  case true => rwa [show step e s = s from by simp [step, hex]]
  case false =>
  cases e with
  | connection id er =>
      by_cases hwss : s.wss = WssState.listening
      · rcases er with _ | emsg
        · rw [show (step (Event.connection id none) s).terminals =
              aset id s.nextId s.terminals from by
            simp [step, hex, handleConnection, hwss]]
          exact keysNodup_aset id s.nextId s.terminals hnd
        · rwa [show (step (Event.connection id (some emsg)) s).terminals = s.terminals from by
            simp [step, hex, handleConnection, hwss]]
      · rwa [show step (Event.connection id er) s = s from by
          simp [step, hex, handleConnection, hwss]]
  | message cid' m =>
      rcases hc0 : alookup cid' s.conns with _ | c0
      · rwa [show (step (Event.message cid' m) s).terminals = s.terminals from by
          simp [step, hex, handleMessage, hc0]]
      · rcases hh : c0.handle with _ | h
        · rwa [show (step (Event.message cid' m) s).terminals = s.terminals from by
            simp [step, hex, handleMessage, hc0, hh]]
        · rcases hp : alookup h s.procs with _ | p
          · rwa [show (step (Event.message cid' m) s).terminals = s.terminals from by
              simp [step, hex, handleMessage, hc0, hh, hp]]
          · cases m <;>
              rwa [show (step (Event.message cid' _) s).terminals = s.terminals from by
                simp [step, hex, handleMessage, hc0, hh, hp]]
  | ptyData cid' d =>
      rcases hc0 : alookup cid' s.conns with _ | c0
      · rwa [show (step (Event.ptyData cid' d) s).terminals = s.terminals from by
          simp [step, hex, handlePtyData, hc0]]
      · rcases hh : c0.handle with _ | h
        · rwa [show (step (Event.ptyData cid' d) s).terminals = s.terminals from by
            simp [step, hex, handlePtyData, hc0, hh]]
        · by_cases hr : c0.ready = WsReady.OPEN <;>
            rwa [show (step (Event.ptyData cid' d) s).terminals = s.terminals from by
              simp [step, hex, handlePtyData, hc0, hh, hr]]
  | ptyExit cid' code sig =>
      rcases hc0 : alookup cid' s.conns with _ | c0
      · rwa [show (step (Event.ptyExit cid' code sig) s).terminals = s.terminals from by
          simp [step, hex, handlePtyExit, hc0]]
      · rcases hh : c0.handle with _ | h
        · rwa [show (step (Event.ptyExit cid' code sig) s).terminals = s.terminals from by
            simp [step, hex, handlePtyExit, hc0, hh]]
        · rcases hp : alookup h s.procs with _ | p
          · rwa [show (step (Event.ptyExit cid' code sig) s).terminals = s.terminals from by
              simp [step, hex, handlePtyExit, hc0, hh, hp]]
          · by_cases hal : p.alive = true
            · have hterm : (step (Event.ptyExit cid' code sig) s).terminals =
                  aerase c0.terminalId s.terminals := by
                by_cases hr : c0.ready = WsReady.OPEN <;>
                  simp [step, hex, handlePtyExit, hc0, hh, hp, hal, hr]
              rw [hterm]
              exact keysNodup_aerase c0.terminalId s.terminals hnd
            · rwa [show (step (Event.ptyExit cid' code sig) s).terminals = s.terminals from by
                simp [step, hex, handlePtyExit, hc0, hh, hp, hal]]
  | wsClose cid' =>
      rcases hc0 : alookup cid' s.conns with _ | c0
      · rwa [show (step (Event.wsClose cid') s).terminals = s.terminals from by
          simp [step, hex, handleSocketClose, hc0]]
      · by_cases hr : c0.ready = WsReady.CLOSED
        · rwa [show (step (Event.wsClose cid') s).terminals = s.terminals from by
            simp [step, hex, handleSocketClose, hc0, hr]]
        · rcases ht : alookup c0.terminalId s.terminals with _ | h
          · rwa [show (step (Event.wsClose cid') s).terminals = s.terminals from by
              simp [step, hex, handleSocketClose, hc0, hr, ht]]
          · have hterm : (step (Event.wsClose cid') s).terminals =
                aerase c0.terminalId s.terminals := by
              rcases hp : alookup h s.procs with _ | p <;>
                simp [step, hex, handleSocketClose, hc0, hr, ht, hp]
            rw [hterm]
            exact keysNodup_aerase c0.terminalId s.terminals hnd
  | wsError cid' =>
      rcases hc0 : alookup cid' s.conns with _ | c0
      · rwa [show (step (Event.wsError cid') s).terminals = s.terminals from by
          simp [step, hex, handleSocketClose, hc0]]
      · by_cases hr : c0.ready = WsReady.CLOSED
        · rwa [show (step (Event.wsError cid') s).terminals = s.terminals from by
            simp [step, hex, handleSocketClose, hc0, hr]]
        · rcases ht : alookup c0.terminalId s.terminals with _ | h
          · rwa [show (step (Event.wsError cid') s).terminals = s.terminals from by
              simp [step, hex, handleSocketClose, hc0, hr, ht]]
          · have hterm : (step (Event.wsError cid') s).terminals =
                aerase c0.terminalId s.terminals := by
              rcases hp : alookup h s.procs with _ | p <;>
                simp [step, hex, handleSocketClose, hc0, hr, ht, hp]
            rw [hterm]
            exact keysNodup_aerase c0.terminalId s.terminals hnd
  | sigint =>
      rwa [show (step Event.sigint s).terminals = s.terminals from by
        simp [step, hex, handleSigint]]
  | wssClosed =>
      have hterm : (step Event.wssClosed s).terminals = s.terminals := by
        by_cases hw : s.wss = WssState.closing <;>
          simp [step, hex, handleWssClosed, hw]
      rwa [hterm]

/-- Along every trace, the Session Registry's keys stay pairwise
distinct. -/
theorem terminals_keysNodup (es : List Event) :
    ((run es).terminals.map Prod.fst).Nodup := by
  induction es using List.reverseRecOn with
  | nil => simp [run, init]
  | append_singleton es e ih =>
      rw [run_concat]
      exact terminals_keysNodup_step e (run es) ih

/-- Run a sequence of events from an arbitrary state. -/
def runFrom (s : ServerState) (es : List Event) : ServerState :=
  es.foldl (fun s e => step e s) s

/-- Each step leaves the registry unchanged, overwrites one key after
a successful spawn, or only deletes (on the exit or close/error
paths). -/
theorem terminals_step_shape (e : Event) (s : ServerState) :
    (step e s).terminals = s.terminals ∨
    (∃ id, e = Event.connection id none ∧
      (step e s).terminals = aset id s.nextId s.terminals) ∨
    (∃ tid, ((∃ cid code sig, e = Event.ptyExit cid code sig) ∨
        (∃ cid, e = Event.wsClose cid) ∨ (∃ cid, e = Event.wsError cid)) ∧
      (step e s).terminals = aerase tid s.terminals) := by
  cases hex : s.exited
  case true =>
    left
    rw [show step e s = s from by simp [step, hex]]
  case false =>
  cases e with
  | connection id er =>
      by_cases hwss : s.wss = WssState.listening
      · rcases er with _ | emsg
        · exact Or.inr (Or.inl ⟨id, rfl, by simp [step, hex, handleConnection, hwss]⟩)
        · left
          simp [step, hex, handleConnection, hwss]
      · left
        simp [step, hex, handleConnection, hwss]
  | message cid' m =>
      left
      rcases hc0 : alookup cid' s.conns with _ | c0
      · simp [step, hex, handleMessage, hc0]
      · rcases hh : c0.handle with _ | h
        · simp [step, hex, handleMessage, hc0, hh]
        · rcases hp : alookup h s.procs with _ | p
          · simp [step, hex, handleMessage, hc0, hh, hp]
          · cases m <;> simp [step, hex, handleMessage, hc0, hh, hp]
  | ptyData cid' d =>
      left
      rcases hc0 : alookup cid' s.conns with _ | c0
      · simp [step, hex, handlePtyData, hc0]
      · rcases hh : c0.handle with _ | h
        · simp [step, hex, handlePtyData, hc0, hh]
        · by_cases hr : c0.ready = WsReady.OPEN <;>
            simp [step, hex, handlePtyData, hc0, hh, hr]
  | ptyExit cid' code sig =>
      rcases hc0 : alookup cid' s.conns with _ | c0
      · left
        simp [step, hex, handlePtyExit, hc0]
      · rcases hh : c0.handle with _ | h
        · left
          simp [step, hex, handlePtyExit, hc0, hh]
        · rcases hp : alookup h s.procs with _ | p
          · left
            simp [step, hex, handlePtyExit, hc0, hh, hp]
          · by_cases hal : p.alive = true
            · refine Or.inr (Or.inr ⟨c0.terminalId, Or.inl ⟨cid', code, sig, rfl⟩, ?_⟩)
              by_cases hr : c0.ready = WsReady.OPEN <;>
                simp [step, hex, handlePtyExit, hc0, hh, hp, hal, hr]
            · left
              simp [step, hex, handlePtyExit, hc0, hh, hp, hal]
  | wsClose cid' =>
      rcases hc0 : alookup cid' s.conns with _ | c0
      · left
        simp [step, hex, handleSocketClose, hc0]
      · by_cases hr : c0.ready = WsReady.CLOSED
        · left
          simp [step, hex, handleSocketClose, hc0, hr]
        · rcases ht : alookup c0.terminalId s.terminals with _ | h
          · left
            rw [show (step (Event.wsClose cid') s).terminals = s.terminals from by
              simp [step, hex, handleSocketClose, hc0, hr, ht]]
          · refine Or.inr (Or.inr ⟨c0.terminalId, Or.inr (Or.inl ⟨cid', rfl⟩), ?_⟩)
            rcases hp : alookup h s.procs with _ | p <;>
              simp [step, hex, handleSocketClose, hc0, hr, ht, hp]
  | wsError cid' =>
      rcases hc0 : alookup cid' s.conns with _ | c0
      · left
        simp [step, hex, handleSocketClose, hc0]
      · by_cases hr : c0.ready = WsReady.CLOSED
        · left
          simp [step, hex, handleSocketClose, hc0, hr]
        · rcases ht : alookup c0.terminalId s.terminals with _ | h
          · left
            rw [show (step (Event.wsError cid') s).terminals = s.terminals from by
              simp [step, hex, handleSocketClose, hc0, hr, ht]]
          · refine Or.inr (Or.inr ⟨c0.terminalId, Or.inr (Or.inr ⟨cid', rfl⟩), ?_⟩)
            rcases hp : alookup h s.procs with _ | p <;>
              simp [step, hex, handleSocketClose, hc0, hr, ht, hp]
  | sigint =>
      left
      simp [step, hex, handleSigint]
  | wssClosed =>
      left
      by_cases hw : s.wss = WssState.closing <;>
        simp [step, hex, handleWssClosed, hw]

theorem handleConnection_exited (id : String) (er : Option String) (s : ServerState) :
    (handleConnection id er s).exited = s.exited := by
  unfold handleConnection
  by_cases hwss : s.wss = WssState.listening
  · rcases er with _ | emsg <;> simp [hwss]
  · simp [hwss]

theorem handleMessage_exited (cid : Nat) (m : RawMsg) (s : ServerState) :
    (handleMessage cid m s).exited = s.exited := by
  unfold handleMessage
  repeat' split
  all_goals rfl

theorem handlePtyData_exited (cid : Nat) (d : String) (s : ServerState) :
    (handlePtyData cid d s).exited = s.exited := by
  unfold handlePtyData
  repeat' split
  all_goals rfl

theorem handlePtyExit_exited (cid : Nat) (code : Option Int) (sig : Option String)
    (s : ServerState) : (handlePtyExit cid code sig s).exited = s.exited := by
  unfold handlePtyExit
  split
  · rfl
  · split
    · rfl
    · split
      · rfl
      · split
        · dsimp only
          split <;> rfl
        · rfl

theorem handleSocketClose_exited (cid : Nat) (s : ServerState) :
    (handleSocketClose cid s).exited = s.exited := by
  unfold handleSocketClose
  split
  · rfl
  · split
    · rfl
    · dsimp only
      split
      · rfl
      · dsimp only
        split <;> rfl

/-- `process.exit` happens only through the `wss.close` callback, and
only when the listener was draining. -/
theorem exited_step (e : Event) (t : ServerState) (hex : t.exited = false)
    (hpost : (step e t).exited = true) :
    e = Event.wssClosed ∧ t.wss = WssState.closing := by
  cases e with
  | connection id er =>
      rw [show (step (Event.connection id er) t).exited = t.exited from by
        simp [step, hex, handleConnection_exited]] at hpost
      rw [hex] at hpost
      cases hpost
  | message cid m =>
      rw [show (step (Event.message cid m) t).exited = t.exited from by
        simp [step, hex, handleMessage_exited]] at hpost
      rw [hex] at hpost
      cases hpost
  | ptyData cid d =>
      rw [show (step (Event.ptyData cid d) t).exited = t.exited from by
        simp [step, hex, handlePtyData_exited]] at hpost
      rw [hex] at hpost
      cases hpost
  | ptyExit cid code sig =>
      rw [show (step (Event.ptyExit cid code sig) t).exited = t.exited from by
        simp [step, hex, handlePtyExit_exited]] at hpost
      rw [hex] at hpost
      cases hpost
  | wsClose cid =>
      rw [show (step (Event.wsClose cid) t).exited = t.exited from by
        simp [step, hex, handleSocketClose_exited]] at hpost
      rw [hex] at hpost
      cases hpost
  | wsError cid =>
      rw [show (step (Event.wsError cid) t).exited = t.exited from by
        simp [step, hex, handleSocketClose_exited]] at hpost
      rw [hex] at hpost
      cases hpost
  | sigint =>
      rw [show (step Event.sigint t).exited = t.exited from by
        simp [step, hex, handleSigint]] at hpost
      rw [hex] at hpost
      cases hpost
  | wssClosed =>
      refine ⟨rfl, ?_⟩
      by_cases hw : t.wss = WssState.closing
      · exact hw
      · rw [show (step Event.wssClosed t).exited = t.exited from by
          simp [step, hex, handleWssClosed, hw]] at hpost
        rw [hex] at hpost
        cases hpost

theorem handleMessage_malformed (cid : Nat) (s : ServerState) :
    handleMessage cid RawMsg.malformed s = s := by
  unfold handleMessage
  repeat' split
  all_goals try rfl
  all_goals contradiction

theorem handleMessage_unknown (cid : Nat) (ty : String) (s : ServerState) :
    handleMessage cid (RawMsg.unknown ty) s = s := by
  unfold handleMessage
  repeat' split
  all_goals try rfl
  all_goals contradiction

/-- The state after one successful connection with id draw `"t1"`:
one Active session. -/
def oneSession : ServerState := run [Event.connection "t1" none]

/-- The connection record of that session. -/
def oneConn : Conn := ⟨"t1", some 0, WsReady.OPEN, [OutMsg.connected "t1" defaultShell 0]⟩

/-- The process record of that session. -/
def oneProc : PtyProc := ⟨0, 80, 30, [], 0, true⟩

/-- C2: when the shell of an Active session exits by itself with code
0 (exit event `(0, null)`), the handler appends exactly one
`exit{code: 0, signal: null}` envelope to that client, calls
`ws.close()` (socket goes to `CLOSING`), and deletes the session's id
from the Registry. -/
theorem claim2_exit_zero (s : ServerState) (cid : Nat) (c : Conn) (h : Nat) (p : PtyProc)
    (hex : s.exited = false)
    (hc : alookup cid s.conns = some c) (hh : c.handle = some h)
    (hr : c.ready = WsReady.OPEN)
    (hp : alookup h s.procs = some p) (hal : p.alive = true) :
    ∃ c', alookup cid (step (Event.ptyExit cid (some 0) none) s).conns = some c' ∧
      c'.sent = c.sent ++ [OutMsg.exit (some 0) none] ∧
      c'.ready = WsReady.CLOSING ∧
      alookup c.terminalId (step (Event.ptyExit cid (some 0) none) s).terminals = none := by
  refine ⟨{ c with sent := c.sent ++ [OutMsg.exit (some 0) none], ready := WsReady.CLOSING },
    ?_, rfl, rfl, ?_⟩
  · have hconns : (step (Event.ptyExit cid (some 0) none) s).conns =
        aset cid { c with sent := c.sent ++ [OutMsg.exit (some 0) none], ready := WsReady.CLOSING } s.conns := by
      simp [step, hex, handlePtyExit, hc, hh, hp, hal, hr]
    rw [hconns, alookup_aset]
    simp
  · have hterm : (step (Event.ptyExit cid (some 0) none) s).terminals =
        aerase c.terminalId s.terminals := by
      simp [step, hex, handlePtyExit, hc, hh, hp, hal, hr]
    rw [hterm, alookup_aerase]
    simp

theorem claim2_exit_zero_witness :
    oneSession.exited = false ∧
    alookup 0 oneSession.conns = some oneConn ∧
    oneConn.handle = some 0 ∧ oneConn.ready = WsReady.OPEN ∧
    alookup 0 oneSession.procs = some oneProc ∧ oneProc.alive = true ∧
    (∃ c', alookup 0 (step (Event.ptyExit 0 (some 0) none) oneSession).conns = some c' ∧
      c'.sent = oneConn.sent ++ [OutMsg.exit (some 0) none] ∧
      c'.ready = WsReady.CLOSING ∧
      alookup oneConn.terminalId (step (Event.ptyExit 0 (some 0) none) oneSession).terminals = none) :=
  ⟨by decide, by decide, by decide, by decide, by decide, by decide,
    claim2_exit_zero oneSession 0 oneConn 0 oneProc (by decide) (by decide) (by decide)
      (by decide) (by decide) (by decide)⟩

/-- C4: when the transport of an Active session closes or errors, the
handler kills the registered process, removes the session's id from
the Registry, and sends no envelope (the `sent` log is unchanged). -/
theorem claim4_transport_close (s : ServerState) (cid : Nat) (c : Conn) (h : Nat) (p : PtyProc)
    (hex : s.exited = false) (hc : alookup cid s.conns = some c)
    (hr : c.ready = WsReady.OPEN)
    (ht : alookup c.terminalId s.terminals = some h) (hp : alookup h s.procs = some p) :
    ((alookup h (step (Event.wsClose cid) s).procs).map PtyProc.killCount = some (p.killCount + 1) ∧
     alookup c.terminalId (step (Event.wsClose cid) s).terminals = none ∧
     (alookup cid (step (Event.wsClose cid) s).conns).map Conn.sent = some c.sent ∧
     (alookup cid (step (Event.wsClose cid) s).conns).map Conn.ready = some WsReady.CLOSED) ∧
    ((alookup h (step (Event.wsError cid) s).procs).map PtyProc.killCount = some (p.killCount + 1) ∧
     alookup c.terminalId (step (Event.wsError cid) s).terminals = none ∧
     (alookup cid (step (Event.wsError cid) s).conns).map Conn.sent = some c.sent ∧
     (alookup cid (step (Event.wsError cid) s).conns).map Conn.ready = some WsReady.CLOSED) := by
  have hrne : ¬c.ready = WsReady.CLOSED := by
    rw [hr]
    intro hq
    cases hq
  have hclose : step (Event.wsClose cid) s = handleSocketClose cid s := by
    simp [step, hex]
  have herr : step (Event.wsError cid) s = handleSocketClose cid s := by
    simp [step, hex]
  have hsc : handleSocketClose cid s = { s with
      conns := aset cid { c with ready := WsReady.CLOSED } s.conns
      procs := aset h { p with killCount := p.killCount + 1 } s.procs
      terminals := aerase c.terminalId s.terminals } := by
    simp [handleSocketClose, hc, hrne, ht, hp]
  constructor <;> rw [show step _ s = handleSocketClose cid s from by simp [step, hex], hsc] <;>
    refine ⟨?_, ?_, ?_, ?_⟩
  · rw [show ({ s with
        conns := aset cid { c with ready := WsReady.CLOSED } s.conns
        procs := aset h { p with killCount := p.killCount + 1 } s.procs
        terminals := aerase c.terminalId s.terminals } : ServerState).procs =
      aset h { p with killCount := p.killCount + 1 } s.procs from rfl, alookup_aset]
    simp
  · rw [show ({ s with
        conns := aset cid { c with ready := WsReady.CLOSED } s.conns
        procs := aset h { p with killCount := p.killCount + 1 } s.procs
        terminals := aerase c.terminalId s.terminals } : ServerState).terminals =
      aerase c.terminalId s.terminals from rfl, alookup_aerase]
    simp
  · rw [show ({ s with
        conns := aset cid { c with ready := WsReady.CLOSED } s.conns
        procs := aset h { p with killCount := p.killCount + 1 } s.procs
        terminals := aerase c.terminalId s.terminals } : ServerState).conns =
      aset cid { c with ready := WsReady.CLOSED } s.conns from rfl, alookup_aset]
    simp
  · rw [show ({ s with
        conns := aset cid { c with ready := WsReady.CLOSED } s.conns
        procs := aset h { p with killCount := p.killCount + 1 } s.procs
        terminals := aerase c.terminalId s.terminals } : ServerState).conns =
      aset cid { c with ready := WsReady.CLOSED } s.conns from rfl, alookup_aset]
    simp
  · rw [show ({ s with
        conns := aset cid { c with ready := WsReady.CLOSED } s.conns
        procs := aset h { p with killCount := p.killCount + 1 } s.procs
        terminals := aerase c.terminalId s.terminals } : ServerState).procs =
      aset h { p with killCount := p.killCount + 1 } s.procs from rfl, alookup_aset]
    simp
  · rw [show ({ s with
        conns := aset cid { c with ready := WsReady.CLOSED } s.conns
        procs := aset h { p with killCount := p.killCount + 1 } s.procs
        terminals := aerase c.terminalId s.terminals } : ServerState).terminals =
      aerase c.terminalId s.terminals from rfl, alookup_aerase]
    simp
  · rw [show ({ s with
        conns := aset cid { c with ready := WsReady.CLOSED } s.conns
        procs := aset h { p with killCount := p.killCount + 1 } s.procs
        terminals := aerase c.terminalId s.terminals } : ServerState).conns =
      aset cid { c with ready := WsReady.CLOSED } s.conns from rfl, alookup_aset]
    simp
  · rw [show ({ s with
        conns := aset cid { c with ready := WsReady.CLOSED } s.conns
        procs := aset h { p with killCount := p.killCount + 1 } s.procs
        terminals := aerase c.terminalId s.terminals } : ServerState).conns =
      aset cid { c with ready := WsReady.CLOSED } s.conns from rfl, alookup_aset]
    simp

theorem claim4_transport_close_witness :
    oneSession.exited = false ∧
    alookup 0 oneSession.conns = some oneConn ∧
    oneConn.ready = WsReady.OPEN ∧
    alookup oneConn.terminalId oneSession.terminals = some 0 ∧
    alookup 0 oneSession.procs = some oneProc ∧
    (alookup 0 (step (Event.wsClose 0) oneSession).procs).map PtyProc.killCount =
      some (oneProc.killCount + 1) ∧
    alookup oneConn.terminalId (step (Event.wsClose 0) oneSession).terminals = none ∧
    (alookup 0 (step (Event.wsClose 0) oneSession).conns).map Conn.sent = some oneConn.sent :=
  have hmain := claim4_transport_close oneSession 0 oneConn 0 oneProc (by decide) (by decide)
    (by decide) (by decide) (by decide)
  ⟨by decide, by decide, by decide, by decide, by decide,
    hmain.1.1, hmain.1.2.1, hmain.1.2.2.1⟩

/-- C5: on spawn failure the server adds nothing to the Registry or
the process table and the new connection only ever receives the single
`error` envelope before its transport is closed — no retry. -/
theorem claim5_spawn_failure (s : ServerState) (id emsg : String)
    (hex : s.exited = false) (hwss : s.wss = WssState.listening) :
    (step (Event.connection id (some emsg)) s).terminals = s.terminals ∧
    (step (Event.connection id (some emsg)) s).procs = s.procs ∧
    alookup s.nextId (step (Event.connection id (some emsg)) s).conns =
      some ⟨id, none, WsReady.CLOSING, [OutMsg.error ("创建终端进程失败: " ++ emsg)]⟩ := by
  refine ⟨?_, ?_, ?_⟩
  · simp [step, hex, handleConnection, hwss]
  · simp [step, hex, handleConnection, hwss]
  · have hconns : (step (Event.connection id (some emsg)) s).conns =
        aset s.nextId ⟨id, none, WsReady.CLOSING,
          [OutMsg.error ("创建终端进程失败: " ++ emsg)]⟩ s.conns := by
      simp [step, hex, handleConnection, hwss]
    rw [hconns, alookup_aset]
    simp

theorem claim5_spawn_failure_witness :
    init.exited = false ∧ init.wss = WssState.listening ∧
    (step (Event.connection "t1" (some "boom")) init).terminals = init.terminals ∧
    (step (Event.connection "t1" (some "boom")) init).procs = init.procs ∧
    alookup init.nextId (step (Event.connection "t1" (some "boom")) init).conns =
      some ⟨"t1", none, WsReady.CLOSING, [OutMsg.error ("创建终端进程失败: " ++ "boom")]⟩ :=
  ⟨by decide, by decide, claim5_spawn_failure init "t1" "boom" rfl rfl⟩

/-- C8: a malformed (unparsable) inbound message or one with an
unrecognized `type` changes nothing at all: the whole server state —
registry, processes, sockets, envelopes — is exactly as before, so an
Active session stays Active. -/
theorem claim8_unknown_ignored (s : ServerState) (cid : Nat) (ty : String) :
    step (Event.message cid RawMsg.malformed) s = s ∧
    step (Event.message cid (RawMsg.unknown ty)) s = s := by
  cases hex : s.exited
  · exact ⟨by simp [step, hex, handleMessage_malformed],
      by simp [step, hex, handleMessage_unknown]⟩
  · exact ⟨by simp [step, hex], by simp [step, hex]⟩

/-- C6: the SIGINT handler issues `kill` against the process of every
Registry entry and only then asks the listener to close; `process.exit`
runs only from the listener's close callback, and no connection is
processed once the listener stopped listening. -/
theorem claim6_shutdown_order (s : ServerState) (hex : s.exited = false)
    (hwss : s.wss = WssState.listening) :
    (∀ h, h ∈ s.terminals.map Prod.snd → ∀ p, alookup h s.procs = some p →
      ∃ q, alookup h (step Event.sigint s).procs = some q ∧
        p.killCount + 1 ≤ q.killCount ∧ q.alive = p.alive) ∧
    (step Event.sigint s).wss = WssState.closing ∧
    (step Event.sigint s).exited = false ∧
    (∀ (t : ServerState) (e : Event), t.exited = false → (step e t).exited = true →
      e = Event.wssClosed ∧ t.wss = WssState.closing) ∧
    (∀ (t : ServerState) (id : String) (er : Option String),
      t.wss ≠ WssState.listening → step (Event.connection id er) t = t) := by
  refine ⟨?_, ?_, ?_, fun t e hext hpost => exited_step e t hext hpost, ?_⟩
  · intro h hmem p hp
    have hpr : (step Event.sigint s).procs = (s.terminals.map Prod.snd).foldl kill1 s.procs := by
      simp [step, hex, handleSigint]
    refine ⟨bump ((s.terminals.map Prod.snd).count h) p, ?_, ?_, rfl⟩
    · rw [hpr, alookup_killAll, hp]
      rfl
    · have hcount : 0 < (s.terminals.map Prod.snd).count h := List.count_pos_iff.mpr hmem
      simp only [bump]
      omega
  · simp [step, hex, handleSigint, hwss]
  · simp [step, hex, handleSigint]
  · intro t id er hw
    cases hext : t.exited
    · simp [step, hext, handleConnection, hw]
    · simp [step, hext]

theorem claim6_shutdown_order_witness :
    oneSession.exited = false ∧ oneSession.wss = WssState.listening ∧
    (∀ h, h ∈ oneSession.terminals.map Prod.snd → ∀ p, alookup h oneSession.procs = some p →
      ∃ q, alookup h (step Event.sigint oneSession).procs = some q ∧
        p.killCount + 1 ≤ q.killCount ∧ q.alive = p.alive) ∧
    (step Event.sigint oneSession).wss = WssState.closing ∧
    (step Event.sigint oneSession).exited = false :=
  have hmain := claim6_shutdown_order oneSession (by decide) (by decide)
  ⟨by decide, by decide, hmain.1, hmain.2.1, hmain.2.2.1⟩

/-- C7: while a session is Active, each `input` payload is appended
verbatim to the process's input, so a sequence of `input` envelopes is
received by the process as its in-order concatenation. -/
theorem claim7_input_order (s : ServerState) (cid : Nat) (c : Conn) (h : Nat) (p : PtyProc)
    (ps : List String)
    (hex : s.exited = false) (hc : alookup cid s.conns = some c) (hh : c.handle = some h)
    (hr : c.ready = WsReady.OPEN) (hp : alookup h s.procs = some p) :
    alookup h (runFrom s (ps.map (fun d => Event.message cid (RawMsg.input d)))).procs =
      some { p with written := p.written ++ ps } := by
  revert s p
  induction ps with
  | nil =>
      intro s p hex hc hp
      simpa [runFrom] using hp
  | cons d ds ih =>
      intro s p hex hc hp
      have hstep : step (Event.message cid (RawMsg.input d)) s =
          { s with procs := aset h { p with written := p.written ++ [d] } s.procs } := by
        simp [step, hex, handleMessage, hc, hh, hp]
      rw [show runFrom s ((d :: ds).map (fun x => Event.message cid (RawMsg.input x))) =
          runFrom (step (Event.message cid (RawMsg.input d)) s)
            (ds.map (fun x => Event.message cid (RawMsg.input x))) from rfl]
      rw [hstep]
      have hres := ih { s with procs := aset h { p with written := p.written ++ [d] } s.procs }
        { p with written := p.written ++ [d] } hex hc
        (by rw [show ({ s with procs := aset h { p with written := p.written ++ [d] } s.procs }
            : ServerState).procs = aset h { p with written := p.written ++ [d] } s.procs from rfl,
          alookup_aset]; simp)
      simpa [List.append_assoc] using hres

theorem claim7_input_order_witness :
    oneSession.exited = false ∧
    alookup 0 oneSession.conns = some oneConn ∧
    oneConn.handle = some 0 ∧ oneConn.ready = WsReady.OPEN ∧
    alookup 0 oneSession.procs = some oneProc ∧
    alookup 0 (runFrom oneSession (["a", "b", "c"].map
      (fun d => Event.message 0 (RawMsg.input d)))).procs =
      some { oneProc with written := oneProc.written ++ ["a", "b", "c"] } ∧
    String.join (oneProc.written ++ ["a", "b", "c"]) = "abc" :=
  ⟨by decide, by decide, by decide, by decide, by decide,
    claim7_input_order oneSession 0 oneConn 0 oneProc ["a", "b", "c"] (by decide) (by decide)
      (by decide) (by decide) (by decide),
    by decide⟩

theorem dims_contra {m : List (Nat × PtyProc)} {h h' : Nat} {p p₀ q₀ q : PtyProc}
    (hp : alookup h m = some p) (hp₀ : alookup h' m = some p₀)
    (hq : alookup h (aset h' q₀ m) = some q)
    (hcols : q₀.cols = p₀.cols) (hrows : q₀.rows = p₀.rows)
    (hdiff : q.cols ≠ p.cols ∨ q.rows ≠ p.rows) : False := by
  rcases alookup_aset_cases hq with ⟨hxx, rfl⟩ | ⟨hxx, hold⟩
  · subst hxx
    have hpp : p₀ = p := Option.some.inj (hp₀.symm.trans hp)
    subst hpp
    rcases hdiff with hd | hd
    · exact hd hcols
    · exact hd hrows
  · have hqp : q = p := Option.some.inj (hold.symm.trans hp)
    subst hqp
    rcases hdiff with hd | hd <;> exact hd rfl

theorem dims_contra_same {m : List (Nat × PtyProc)} {h : Nat} {p q : PtyProc}
    (hp : alookup h m = some p) (hq : alookup h m = some q)
    (hdiff : q.cols ≠ p.cols ∨ q.rows ≠ p.rows) : False := by
  have hqp : q = p := Option.some.inj (hq.symm.trans hp)
  subst hqp
  rcases hdiff with hd | hd <;> exact hd rfl

/-- C10: a successful spawn always creates the pseudo-terminal at the
fixed size 80 columns by 30 rows, regardless of the connection; and a
process's dimensions change only when a `resize` envelope is handled,
which sets exactly the requested values. -/
theorem claim10_initial_size (s : ServerState) (id : String)
    (hex : s.exited = false) (hwss : s.wss = WssState.listening)
    (hfresh : ∀ k, (alookup k s.procs).isSome → k < s.nextId) :
    alookup s.nextId (step (Event.connection id none) s).procs =
      some ⟨s.nextId, 80, 30, [], 0, true⟩ ∧
    ∀ (e : Event) (h : Nat) (p q : PtyProc),
      alookup h s.procs = some p → alookup h (step e s).procs = some q →
      q.cols ≠ p.cols ∨ q.rows ≠ p.rows →
      ∃ cid cols rows, e = Event.message cid (RawMsg.resize cols rows) ∧
        q.cols = cols ∧ q.rows = rows := by
  constructor
  · have hpr : (step (Event.connection id none) s).procs =
        aset s.nextId ⟨s.nextId, 80, 30, [], 0, true⟩ s.procs := by
      simp [step, hex, handleConnection, hwss]
    rw [hpr, alookup_aset]
    simp
  · intro e h p q hp hq hdiff
    cases e with
    | connection id' er =>
        rcases er with _ | emsg
        · have hpr : (step (Event.connection id' none) s).procs =
              aset s.nextId ⟨s.nextId, 80, 30, [], 0, true⟩ s.procs := by
            simp [step, hex, handleConnection, hwss]
          rw [hpr] at hq
          rcases alookup_aset_cases hq with ⟨hxx, rfl⟩ | ⟨hxx, hold⟩
          · have hlt := hfresh h (by simp [hp])
            exact absurd hxx (by omega)
          · exact (dims_contra_same hp hold hdiff).elim
        · have hpr : (step (Event.connection id' (some emsg)) s).procs = s.procs := by
            simp [step, hex, handleConnection, hwss]
          rw [hpr] at hq
          exact (dims_contra_same hp hq hdiff).elim
    | message cid' m =>
        rcases hc0 : alookup cid' s.conns with _ | c0
        · rw [show (step (Event.message cid' m) s).procs = s.procs from by
            simp [step, hex, handleMessage, hc0]] at hq
          exact (dims_contra_same hp hq hdiff).elim
        · rcases hh0 : c0.handle with _ | h'
          · rw [show (step (Event.message cid' m) s).procs = s.procs from by
              simp [step, hex, handleMessage, hc0, hh0]] at hq
            exact (dims_contra_same hp hq hdiff).elim
          · rcases hp0 : alookup h' s.procs with _ | p₀
            · rw [show (step (Event.message cid' m) s).procs = s.procs from by
                simp [step, hex, handleMessage, hc0, hh0, hp0]] at hq
              exact (dims_contra_same hp hq hdiff).elim
            · cases m with
              | input d =>
                  rw [show (step (Event.message cid' (RawMsg.input d)) s).procs =
                      aset h' { p₀ with written := p₀.written ++ [d] } s.procs from by
                    simp [step, hex, handleMessage, hc0, hh0, hp0]] at hq
                  exact (dims_contra hp hp0 hq rfl rfl hdiff).elim
              | resize cols rows =>
                  rw [show (step (Event.message cid' (RawMsg.resize cols rows)) s).procs =
                      aset h' { p₀ with cols := cols, rows := rows } s.procs from by
                    simp [step, hex, handleMessage, hc0, hh0, hp0]] at hq
                  rcases alookup_aset_cases hq with ⟨hxx, rfl⟩ | ⟨hxx, hold⟩
                  · exact ⟨cid', cols, rows, rfl, rfl, rfl⟩
                  · exact (dims_contra_same hp hold hdiff).elim
              | unknown ty =>
                  rw [show (step (Event.message cid' (RawMsg.unknown ty)) s).procs = s.procs
                      from by simp [step, hex, handleMessage, hc0, hh0, hp0]] at hq
                  exact (dims_contra_same hp hq hdiff).elim
              | malformed =>
                  rw [show (step (Event.message cid' RawMsg.malformed) s).procs = s.procs
                      from by simp [step, hex, handleMessage, hc0, hh0, hp0]] at hq
                  exact (dims_contra_same hp hq hdiff).elim
    | ptyData cid' d =>
        have hpr : (step (Event.ptyData cid' d) s).procs = s.procs := by
          rcases hc0 : alookup cid' s.conns with _ | c0
          · simp [step, hex, handlePtyData, hc0]
          · rcases hh0 : c0.handle with _ | h'
            · simp [step, hex, handlePtyData, hc0, hh0]
            · by_cases hr : c0.ready = WsReady.OPEN <;>
                simp [step, hex, handlePtyData, hc0, hh0, hr]
        rw [hpr] at hq
        exact (dims_contra_same hp hq hdiff).elim
    | ptyExit cid' code sig =>
        rcases hc0 : alookup cid' s.conns with _ | c0
        · rw [show (step (Event.ptyExit cid' code sig) s).procs = s.procs from by
            simp [step, hex, handlePtyExit, hc0]] at hq
          exact (dims_contra_same hp hq hdiff).elim
        · rcases hh0 : c0.handle with _ | h'
          · rw [show (step (Event.ptyExit cid' code sig) s).procs = s.procs from by
              simp [step, hex, handlePtyExit, hc0, hh0]] at hq
            exact (dims_contra_same hp hq hdiff).elim
          · rcases hp0 : alookup h' s.procs with _ | p₀
            · rw [show (step (Event.ptyExit cid' code sig) s).procs = s.procs from by
                simp [step, hex, handlePtyExit, hc0, hh0, hp0]] at hq
              exact (dims_contra_same hp hq hdiff).elim
            · by_cases hal : p₀.alive = true
              · have hpr : (step (Event.ptyExit cid' code sig) s).procs =
                    aset h' { p₀ with alive := false } s.procs := by
                  by_cases hr : c0.ready = WsReady.OPEN <;>
                    simp [step, hex, handlePtyExit, hc0, hh0, hp0, hal, hr]
                rw [hpr] at hq
                exact (dims_contra hp hp0 hq rfl rfl hdiff).elim
              · rw [show (step (Event.ptyExit cid' code sig) s).procs = s.procs from by
                  simp [step, hex, handlePtyExit, hc0, hh0, hp0, hal]] at hq
                exact (dims_contra_same hp hq hdiff).elim
    | wsClose cid' =>
        rcases hc0 : alookup cid' s.conns with _ | c0
        · rw [show (step (Event.wsClose cid') s).procs = s.procs from by
            simp [step, hex, handleSocketClose, hc0]] at hq
          exact (dims_contra_same hp hq hdiff).elim
        · by_cases hr : c0.ready = WsReady.CLOSED
          · rw [show (step (Event.wsClose cid') s).procs = s.procs from by
              simp [step, hex, handleSocketClose, hc0, hr]] at hq
            exact (dims_contra_same hp hq hdiff).elim
          · rcases ht : alookup c0.terminalId s.terminals with _ | h''
            · rw [show (step (Event.wsClose cid') s).procs = s.procs from by
                simp [step, hex, handleSocketClose, hc0, hr, ht]] at hq
              exact (dims_contra_same hp hq hdiff).elim
            · rcases hp0 : alookup h'' s.procs with _ | p₀
              · rw [show (step (Event.wsClose cid') s).procs = s.procs from by
                  simp [step, hex, handleSocketClose, hc0, hr, ht, hp0]] at hq
                exact (dims_contra_same hp hq hdiff).elim
              · rw [show (step (Event.wsClose cid') s).procs =
                    aset h'' { p₀ with killCount := p₀.killCount + 1 } s.procs from by
                  simp [step, hex, handleSocketClose, hc0, hr, ht, hp0]] at hq
                exact (dims_contra hp hp0 hq rfl rfl hdiff).elim
    | wsError cid' =>
        rcases hc0 : alookup cid' s.conns with _ | c0
        · rw [show (step (Event.wsError cid') s).procs = s.procs from by
            simp [step, hex, handleSocketClose, hc0]] at hq
          exact (dims_contra_same hp hq hdiff).elim
        · by_cases hr : c0.ready = WsReady.CLOSED
          · rw [show (step (Event.wsError cid') s).procs = s.procs from by
              simp [step, hex, handleSocketClose, hc0, hr]] at hq
            exact (dims_contra_same hp hq hdiff).elim
          · rcases ht : alookup c0.terminalId s.terminals with _ | h''
            · rw [show (step (Event.wsError cid') s).procs = s.procs from by
                simp [step, hex, handleSocketClose, hc0, hr, ht]] at hq
              exact (dims_contra_same hp hq hdiff).elim
            · rcases hp0 : alookup h'' s.procs with _ | p₀
              · rw [show (step (Event.wsError cid') s).procs = s.procs from by
                  simp [step, hex, handleSocketClose, hc0, hr, ht, hp0]] at hq
                exact (dims_contra_same hp hq hdiff).elim
              · rw [show (step (Event.wsError cid') s).procs =
                    aset h'' { p₀ with killCount := p₀.killCount + 1 } s.procs from by
                  simp [step, hex, handleSocketClose, hc0, hr, ht, hp0]] at hq
                exact (dims_contra hp hp0 hq rfl rfl hdiff).elim
    | sigint =>
        rw [show (step Event.sigint s).procs =
            (s.terminals.map Prod.snd).foldl kill1 s.procs from by
          simp [step, hex, handleSigint]] at hq
        rw [alookup_killAll, hp] at hq
        cases hq
        rcases hdiff with hd | hd <;> exact absurd rfl hd
    | wssClosed =>
        have hpr : (step Event.wssClosed s).procs = s.procs := by
          by_cases hw : s.wss = WssState.closing <;>
            simp [step, hex, handleWssClosed, hw]
        rw [hpr] at hq
        exact (dims_contra_same hp hq hdiff).elim

theorem claim10_initial_size_witness :
    init.exited = false ∧ init.wss = WssState.listening ∧
    (∀ k, (alookup k init.procs).isSome → k < init.nextId) ∧
    alookup init.nextId (step (Event.connection "t1" none) init).procs =
      some ⟨init.nextId, 80, 30, [], 0, true⟩ :=
  have hfresh : ∀ k, (alookup k init.procs).isSome → k < init.nextId := by
    intro k hk
    simp [init, alookup] at hk
  ⟨by decide, by decide, hfresh,
    (claim10_initial_size init "t1" (by decide) (by decide) hfresh).1⟩

/-- C3: termination is idempotent. For an Active session, whichever of
the process-exit event and the socket-close event fires first performs
the single Registry removal and the single release action (exit
envelope resp. kill); the event that fires second changes neither the
Registry, nor kill counts, nor the envelope log. -/
theorem claim3_termination_idempotent (s : ServerState) (cid : Nat) (c : Conn) (h : Nat)
    (p : PtyProc) (code : Option Int) (sig : Option String)
    (hex : s.exited = false)
    (hc : alookup cid s.conns = some c) (hh : c.handle = some h)
    (hr : c.ready = WsReady.OPEN) (hp : alookup h s.procs = some p) (hal : p.alive = true)
    (ht : alookup c.terminalId s.terminals = some h) :
    (alookup c.terminalId (step (Event.ptyExit cid code sig) s).terminals = none ∧
     (alookup cid (step (Event.ptyExit cid code sig) s).conns).map Conn.sent =
       some (c.sent ++ [OutMsg.exit code sig]) ∧
     (alookup h (step (Event.ptyExit cid code sig) s).procs).map PtyProc.killCount =
       some p.killCount ∧
     (step (Event.wsClose cid) (step (Event.ptyExit cid code sig) s)).terminals =
       (step (Event.ptyExit cid code sig) s).terminals ∧
     (step (Event.wsClose cid) (step (Event.ptyExit cid code sig) s)).procs =
       (step (Event.ptyExit cid code sig) s).procs ∧
     (alookup cid (step (Event.wsClose cid)
         (step (Event.ptyExit cid code sig) s)).conns).map Conn.sent =
       (alookup cid (step (Event.ptyExit cid code sig) s).conns).map Conn.sent) ∧
    (alookup c.terminalId (step (Event.wsClose cid) s).terminals = none ∧
     (alookup h (step (Event.wsClose cid) s).procs).map PtyProc.killCount =
       some (p.killCount + 1) ∧
     (alookup cid (step (Event.wsClose cid) s).conns).map Conn.sent = some c.sent ∧
     (step (Event.ptyExit cid code sig) (step (Event.wsClose cid) s)).terminals =
       (step (Event.wsClose cid) s).terminals ∧
     (alookup h (step (Event.ptyExit cid code sig)
         (step (Event.wsClose cid) s)).procs).map PtyProc.killCount =
       some (p.killCount + 1) ∧
     (alookup cid (step (Event.ptyExit cid code sig)
         (step (Event.wsClose cid) s)).conns).map Conn.sent = some c.sent) := by
  have hrne : ¬c.ready = WsReady.CLOSED := by
    rw [hr]
    intro hq
    cases hq
  -- the state after the exit event
  have hE : step (Event.ptyExit cid code sig) s = { s with
      procs := aset h { p with alive := false } s.procs
      terminals := aerase c.terminalId s.terminals
      conns := aset cid { c with sent := c.sent ++ [OutMsg.exit code sig], ready := WsReady.CLOSING } s.conns } := by
    simp [step, hex, handlePtyExit, hc, hh, hp, hal, hr]
  -- the state after the close event
  have hF : step (Event.wsClose cid) s = { s with
      conns := aset cid { c with ready := WsReady.CLOSED } s.conns
      procs := aset h { p with killCount := p.killCount + 1 } s.procs
      terminals := aerase c.terminalId s.terminals } := by
    simp [step, hex, handleSocketClose, hc, hrne, ht, hp]
  constructor
  · -- order A
    have hA1 : alookup c.terminalId (step (Event.ptyExit cid code sig) s).terminals = none := by
      rw [hE]
      show alookup c.terminalId (aerase c.terminalId s.terminals) = none
      rw [alookup_aerase]
      simp
    have hA2 : alookup cid (step (Event.ptyExit cid code sig) s).conns =
        some { c with sent := c.sent ++ [OutMsg.exit code sig], ready := WsReady.CLOSING } := by
      rw [hE]
      show alookup cid (aset cid _ s.conns) = _
      rw [alookup_aset]
      simp
    have hA3 : alookup h (step (Event.ptyExit cid code sig) s).procs =
        some { p with alive := false } := by
      rw [hE]
      show alookup h (aset h _ s.procs) = _
      rw [alookup_aset]
      simp
    have hE2 : step (Event.wsClose cid) ({ s with
        procs := aset h { p with alive := false } s.procs
        terminals := aerase c.terminalId s.terminals
        conns := aset cid { c with sent := c.sent ++ [OutMsg.exit code sig], ready := WsReady.CLOSING } s.conns }) = { s with
        procs := aset h { p with alive := false } s.procs
        terminals := aerase c.terminalId s.terminals
        conns := aset cid { c with sent := c.sent ++ [OutMsg.exit code sig], ready := WsReady.CLOSED } (aset cid { c with sent := c.sent ++ [OutMsg.exit code sig], ready := WsReady.CLOSING } s.conns) } := by
      simp [step, hex, handleSocketClose, alookup_aset, alookup_aerase]
    refine ⟨hA1, by rw [hA2]; rfl, by rw [hA3]; rfl, by rw [hE, hE2], by rw [hE, hE2], ?_⟩
    rw [hE, hE2]
    show (alookup cid (aset cid { c with sent := c.sent ++ [OutMsg.exit code sig], ready := WsReady.CLOSED } (aset cid { c with sent := c.sent ++ [OutMsg.exit code sig], ready := WsReady.CLOSING } s.conns))).map Conn.sent = (alookup cid (aset cid { c with sent := c.sent ++ [OutMsg.exit code sig], ready := WsReady.CLOSING } s.conns)).map Conn.sent
    rw [alookup_aset, alookup_aset]
    simp
  · -- order B
    have hB1 : alookup c.terminalId (step (Event.wsClose cid) s).terminals = none := by
      rw [hF]
      show alookup c.terminalId (aerase c.terminalId s.terminals) = none
      rw [alookup_aerase]
      simp
    have hB2 : alookup h (step (Event.wsClose cid) s).procs =
        some { p with killCount := p.killCount + 1 } := by
      rw [hF]
      show alookup h (aset h _ s.procs) = _
      rw [alookup_aset]
      simp
    have hB3 : alookup cid (step (Event.wsClose cid) s).conns =
        some { c with ready := WsReady.CLOSED } := by
      rw [hF]
      show alookup cid (aset cid _ s.conns) = _
      rw [alookup_aset]
      simp
    have hB4 : step (Event.ptyExit cid code sig) ({ s with
        conns := aset cid { c with ready := WsReady.CLOSED } s.conns
        procs := aset h { p with killCount := p.killCount + 1 } s.procs
        terminals := aerase c.terminalId s.terminals }) = { s with
        conns := aset cid { c with ready := WsReady.CLOSED } s.conns
        procs := aset h { p with killCount := p.killCount + 1, alive := false } (aset h { p with killCount := p.killCount + 1 } s.procs)
        terminals := aerase c.terminalId (aerase c.terminalId s.terminals) } := by
      simp [step, hex, handlePtyExit, alookup_aset, alookup_aerase, hh, hal]
    refine ⟨hB1, by rw [hB2]; rfl, by rw [hB3]; rfl, ?_, ?_, ?_⟩
    · rw [hF, hB4]
      show aerase c.terminalId (aerase c.terminalId s.terminals) = aerase c.terminalId s.terminals
      refine aerase_of_none ?_
      rw [alookup_aerase]
      simp
    · rw [hF, hB4]
      show (alookup h (aset h { p with killCount := p.killCount + 1, alive := false } (aset h { p with killCount := p.killCount + 1 } s.procs))).map PtyProc.killCount = some (p.killCount + 1)
      rw [alookup_aset]
      simp
    · rw [hF, hB4]
      show (alookup cid (aset cid { c with ready := WsReady.CLOSED } s.conns)).map Conn.sent = some c.sent
      rw [alookup_aset]
      simp

theorem claim3_termination_idempotent_witness :
    oneSession.exited = false ∧
    alookup 0 oneSession.conns = some oneConn ∧
    oneConn.handle = some 0 ∧ oneConn.ready = WsReady.OPEN ∧
    alookup 0 oneSession.procs = some oneProc ∧ oneProc.alive = true ∧
    alookup oneConn.terminalId oneSession.terminals = some 0 ∧
    alookup oneConn.terminalId
      (step (Event.ptyExit 0 (some 0) none) oneSession).terminals = none ∧
    (step (Event.wsClose 0) (step (Event.ptyExit 0 (some 0) none) oneSession)).terminals =
      (step (Event.ptyExit 0 (some 0) none) oneSession).terminals ∧
    (step (Event.wsClose 0) (step (Event.ptyExit 0 (some 0) none) oneSession)).procs =
      (step (Event.ptyExit 0 (some 0) none) oneSession).procs :=
  have hmain := claim3_termination_idempotent oneSession 0 oneConn 0 oneProc (some 0) none
    (by decide) (by decide) (by decide) (by decide) (by decide) (by decide) (by decide)
  ⟨by decide, by decide, by decide, by decide, by decide, by decide, by decide,
    hmain.1.1, hmain.1.2.2.2.1, hmain.1.2.2.2.2.1⟩

/-- A registry key can appear only through a successful spawn with
exactly that id. -/
theorem terminals_insert_step (s : ServerState) (e : Event) (id : String)
    (hpre : alookup id s.terminals = none)
    (hpost : (alookup id (step e s).terminals).isSome) :
    e = Event.connection id none := by
  rcases terminals_step_shape e s with hsame | ⟨id', he, heq⟩ | ⟨tid, _, heq⟩
  · rw [hsame, hpre] at hpost
    cases hpost
  · rw [heq, alookup_aset] at hpost
    by_cases hid : id' = id
    · rw [hid] at he
      exact he
    · rw [if_neg hid, hpre] at hpost
      cases hpost
  · rw [heq, alookup_aerase] at hpost
    by_cases htid : tid = id
    · rw [if_pos htid] at hpost
      cases hpost
    · rw [if_neg htid, hpre] at hpost
      cases hpost

/-- A registry key can disappear only on the process-exit path or the
socket close/error path. -/
theorem terminals_remove_step (s : ServerState) (e : Event) (id : String)
    (hpre : (alookup id s.terminals).isSome)
    (hpost : alookup id (step e s).terminals = none) :
    (∃ cid code sig, e = Event.ptyExit cid code sig) ∨
    (∃ cid, e = Event.wsClose cid) ∨ (∃ cid, e = Event.wsError cid) := by
  rcases terminals_step_shape e s with hsame | ⟨id', he, heq⟩ | ⟨tid, hkind, heq⟩
  · rw [hsame] at hpost
    rw [hpost] at hpre
    cases hpre
  · rw [heq, alookup_aset] at hpost
    by_cases hid : id' = id
    · rw [if_pos hid] at hpost
      cases hpost
    · rw [if_neg hid] at hpost
      rw [hpost] at hpre
      cases hpre
  · exact hkind

/-- A trace in which `generateId()` draws the same token `"abc"` for
two connections — the generator
(`Math.random().toString(36).substr(2, 9)`) makes no distinctness
guarantee, so this is a possible execution — and the first session's
shell then exits by itself. -/
def collidingTrace : List Event :=
  [Event.connection "abc" none, Event.connection "abc" none,
   Event.ptyExit 0 (some 0) none]

/-- C1 counterexample: after `collidingTrace`, the second session's
transport is `OPEN` and its process is alive and was never killed, yet
the Registry does not contain its id (`"abc"` maps to nothing): the
first session's exit handler deleted the key that the second session's
`terminals.set` had overwritten. The state is stable — no teardown is
pending for session 1 — so the Registry/liveness equivalence claimed
for every observation point fails. -/
theorem claim1_counterexample :
    (alookup 1 (run collidingTrace).conns).map Conn.terminalId = some "abc" ∧
    (alookup 1 (run collidingTrace).conns).map Conn.handle = some (some 1) ∧
    (alookup 1 (run collidingTrace).conns).map Conn.ready = some WsReady.OPEN ∧
    (alookup 1 (run collidingTrace).procs).map PtyProc.alive = some true ∧
    (alookup 1 (run collidingTrace).procs).map PtyProc.killCount = some 0 ∧
    alookup "abc" (run collidingTrace).terminals = none := by
  decide

/-- C1 (amended): provided the `generateId()` draws along the trace are
pairwise distinct, the Registry contains a session's id exactly when
the session's socket is `OPEN` and its process is alive; moreover (for
arbitrary states) an id is inserted only by a successful spawn with
that id and removed only on the process-exit or transport-close/error
paths. -/
theorem claim1_ownership_amended (es : List Event) (hnd : (connIds es).Nodup) :
    (∀ id h, alookup id (run es).terminals = some h →
      ∃ cid c p, alookup cid (run es).conns = some c ∧ c.terminalId = id ∧
        c.handle = some h ∧ c.ready = WsReady.OPEN ∧
        alookup h (run es).procs = some p ∧ p.alive = true) ∧
    (∀ cid c h p, alookup cid (run es).conns = some c → c.handle = some h →
      alookup h (run es).procs = some p → p.alive = true → c.ready = WsReady.OPEN →
      alookup c.terminalId (run es).terminals = some h) ∧
    (∀ (t : ServerState) (e : Event) (id : String), alookup id t.terminals = none →
      (alookup id (step e t).terminals).isSome → e = Event.connection id none) ∧
    (∀ (t : ServerState) (e : Event) (id : String), (alookup id t.terminals).isSome →
      alookup id (step e t).terminals = none →
      (∃ cid code sig, e = Event.ptyExit cid code sig) ∨
      (∃ cid, e = Event.wsClose cid) ∨ (∃ cid, e = Event.wsError cid)) :=
  ⟨((inv_run es hnd).1).forward, ((inv_run es hnd).1).backward,
    fun t e id => terminals_insert_step t e id,
    fun t e id => terminals_remove_step t e id⟩

theorem claim1_ownership_amended_witness :
    (connIds [Event.connection "t1" none]).Nodup ∧
    (∀ id h, alookup id (run [Event.connection "t1" none]).terminals = some h →
      ∃ cid c p, alookup cid (run [Event.connection "t1" none]).conns = some c ∧
        c.terminalId = id ∧ c.handle = some h ∧ c.ready = WsReady.OPEN ∧
        alookup h (run [Event.connection "t1" none]).procs = some p ∧ p.alive = true) ∧
    (∀ cid c h p, alookup cid (run [Event.connection "t1" none]).conns = some c →
      c.handle = some h → alookup h (run [Event.connection "t1" none]).procs = some p →
      p.alive = true → c.ready = WsReady.OPEN →
      alookup c.terminalId (run [Event.connection "t1" none]).terminals = some h) :=
  have hmain := claim1_ownership_amended [Event.connection "t1" none] (by decide)
  ⟨by decide, hmain.1, hmain.2.1⟩

/-- A trace in which `generateId()` draws the same token twice in a
row. -/
def collidingPairTrace : List Event :=
  [Event.connection "abc" none, Event.connection "abc" none]

/-- C9 counterexample: two distinct sessions (connection keys 0 and 1)
with equal generated ids `"abc"`; the second `terminals.set` overwrote
the first session's Registry entry (the Registry maps `"abc"` to
handle 1) while the first session's process is still alive —
refuting "for every pair of distinct sessions their generated ids
differ". -/
theorem claim9_counterexample :
    (alookup 0 (run collidingPairTrace).conns).map Conn.terminalId = some "abc" ∧
    (alookup 1 (run collidingPairTrace).conns).map Conn.terminalId = some "abc" ∧
    (0 : Nat) ≠ 1 ∧
    (run collidingPairTrace).terminals = [("abc", 1)] ∧
    (alookup 0 (run collidingPairTrace).procs).map PtyProc.alive = some true := by
  decide

/-- C9 (amended): the Registry itself, being a Map keyed by session id,
never holds two entries with the same id along any trace; but
distinctness of the generated ids across sessions is not guaranteed by
the code — on a random collision the later `terminals.set` silently
overwrites the earlier session's entry. -/
theorem claim9_registry_keys_unique (es : List Event) :
    ((run es).terminals.map Prod.fst).Nodup :=
  terminals_keysNodup es

end Siriusx
